import Mathlib

/-!
# JxlWorker.cpp: one-shot JPEG XL decode / encode drivers

A shallow embedding of `Sources/jxlc/JxlWorker.cpp`.

The three entry points drive an external codec engine (libjxl).  The engine is
not part of the repository, so it is a parameter of every definition: an
engine is described by the answers it gives to the calls the driver makes
(status codes, query results), and the theorems quantify over all of them.
Every call the driver makes is also appended to a call log, so that what is
handed to the engine is observable.  Where the two decode drivers are compared
on one encoded input, the answers of the engine depend on the settings each
driver makes before its loop (`DecInput`).

Conventions
* `size_t` is 64 bits wide; products computed in `size_t` are reduced modulo
  `2 ^ 64`.  `uint32_t` fields are natural numbers; the conversions to `int`
  that the source performs are explicit (`toInt`).
* `std::vector::resize` is assumed to succeed; an allocation failure raises a
  C++ exception, which is outside the boolean protocol of these functions.
-/

namespace JxlWorker

/-! ## Machine integers and byte vectors -/

/-- One byte of a `std::vector<uint8_t>`. -/
abbrev Byte := UInt8

/-- Number of values of `size_t`. -/
def SIZE_MOD : Nat := 2 ^ 64

/-- Conversion of a `uint32_t` to `int` (32-bit wrap-around). -/
def toInt (n : Nat) : Int :=
  if n % 2 ^ 32 < 2 ^ 31 then ((n % 2 ^ 32 : Nat) : Int)
  else ((n % 2 ^ 32 : Nat) : Int) - 2 ^ 32

/-- Conversion of an `int` to `uint32_t`. -/
def toUInt32 (n : Int) : Nat := (n % 2 ^ 32).toNat

/-- Conversion of an `int` to `size_t`. -/
def toSizeT (n : Int) : Nat := (n % 2 ^ 64).toNat

/-- Multiplication in `size_t`. -/
def mulSizeT (a b : Nat) : Nat := (a * b) % SIZE_MOD

/-- `std::vector<uint8_t>::resize(n)`: keeps the first `n` bytes and
value-initialises (zero) the new ones. -/
def resize (v : List Byte) (n : Nat) : List Byte :=
  v.take n ++ List.replicate (n - v.length) 0

/-- Bytes stored by the engine through a pointer `v.data() + offset`. -/
def writeAt (v : List Byte) (offset : Nat) (bytes : List Byte) : List Byte :=
  v.take offset ++ bytes ++ v.drop (offset + bytes.length)

/-! ## libjxl types used by the driver -/

/-- Status codes of `JxlDecoderProcessInput` that the driver distinguishes;
every other code is `other`. -/
inductive JxlDecoderStatus
  | success
  | error
  | needMoreInput
  | needImageOutBuffer
  | basicInfo
  | colorEncoding
  | fullImage
  | other (code : Nat)
  deriving DecidableEq

/-- Sample types of a pixel format (`JXL_TYPE_*`). -/
inductive JxlDataType
  | uint8
  | float16
  deriving DecidableEq

/-- Byte orders of a pixel format. -/
inductive JxlEndianness
  | nativeEndian
  | bigEndian
  deriving DecidableEq

/-- The `JxlPixelFormat` aggregate, in field order. -/
structure JxlPixelFormat where
  num_channels : Nat
  data_type : JxlDataType
  endianness : JxlEndianness
  align : Nat
  deriving DecidableEq

/-- The fields of `JxlBasicInfo` that the driver reads or writes. -/
structure JxlBasicInfo where
  xsize : Nat
  ysize : Nat
  bits_per_sample : Nat
  exponent_bits_per_sample : Nat
  uses_original_profile : Bool
  orientation : Nat
  num_color_channels : Nat
  num_extra_channels : Nat
  alpha_bits : Nat
  deriving DecidableEq

/-! ## The decoder engine and its call log -/

/-- What the engine answers during one iteration of the decode loop: the
status of `JxlDecoderProcessInput` and the result of each query the driver may
make before the next `JxlDecoderProcessInput` (`none` or `false`: the call
does not return `JXL_DEC_SUCCESS`). -/
structure DecEvent where
  status : JxlDecoderStatus
  basicInfo : Option JxlBasicInfo
  iccSize : Option Nat
  icc : Option (List Byte)
  bufferSize : Option Nat
  setBufferOk : Bool
  deriving DecidableEq

/-- A decoder engine: results of the two set-up calls and the answers of the
successive loop iterations. -/
structure DecEngine where
  subscribeEventsOk : Bool
  setParallelRunnerOk : Bool
  events : List DecEvent
  deriving DecidableEq

/-- Calls made on the decoder, with their arguments.  For
`setImageOutBuffer`, `bufferLength` is the length of the vector whose storage
is handed over and `size` the byte size declared for it. -/
inductive DecCall
  | subscribeEvents
  | setParallelRunner
  | setKeepOrientation
  | setUnpremultiplyAlpha
  | setInput
  | closeInput
  | processInput (status : JxlDecoderStatus)
  | getBasicInfo
  | setThreads (xsize ysize : Nat)
  | getICCProfileSize
  | getColorAsICCProfile (size : Nat)
  | imageOutBufferSize (format : JxlPixelFormat)
  | setImageOutBuffer (format : JxlPixelFormat) (bufferLength size : Nat)
  deriving DecidableEq

/-- Control flow of one loop iteration: go round again, or return. -/
inductive Flow (σ : Type)
  | next (s : σ)
  | ret (b : Bool) (s : σ)

/-! ## `DecodeJpegXlOneShot` -/

/-- Out-parameters of `DecodeJpegXlOneShot`: storage owned by the caller,
holding whatever the caller left there until the function writes it.  The
orientation (`JxlExposedOrientation`, declared in the header, which is not
among the sources) is kept as the numeric code it is cast from. -/
structure DecodeOut where
  pixels : List Byte
  xsize : Nat
  ysize : Nat
  icc_profile : List Byte
  depth : Int
  components : Int
  useFloats : Bool
  exposedOrientation : Nat
  deriving DecidableEq

/-- Out-parameters, locals of `DecodeJpegXlOneShot` and the call log. -/
structure DecState where
  out : DecodeOut
  format : JxlPixelFormat
  bitDepth : Int
  hdrImage : Bool
  calls : List DecCall
  deriving DecidableEq

/-- Records one engine call. -/
def DecState.call (s : DecState) (c : DecCall) : DecState :=
  { s with calls := s.calls ++ [c] }

/-- The component count derived from a basic info (lines 88-95). -/
def baseComponents (info : JxlBasicInfo) : Int :=
  let baseComponents := toInt info.num_color_channels
  let baseComponents := if baseComponents < 3 then 3 else baseComponents
  if info.num_extra_channels > 0 then 4 else baseComponents

/-- The handling of `JXL_DEC_BASIC_INFO` after a successful
`JxlDecoderGetBasicInfo` (lines 84-108). -/
def onBasicInfo (info : JxlBasicInfo) (s : DecState) : DecState :=
  let bitDepth := toInt info.bits_per_sample
  let s := { s with
    out := { s.out with
      xsize := info.xsize
      ysize := info.ysize
      depth := toInt info.bits_per_sample
      components := baseComponents info
      exposedOrientation := info.orientation }
    bitDepth := bitDepth }
  let s :=
    if bitDepth > 8 then
      { s with
        out := { s.out with useFloats := true }
        hdrImage := true
        format := ⟨toUInt32 (baseComponents info), .float16, .nativeEndian, 0⟩ }
    else
      { s with
        format := { s.format with num_channels := toUInt32 (baseComponents info) }
        out := { s.out with useFloats := false } }
  s.call (.setThreads info.xsize info.ysize)

/-- Bytes per sample in the size computation:
`hdrImage ? sizeof(uint16_t) : sizeof(uint8_t)`. -/
def sampleBytes (hdrImage : Bool) : Nat := if hdrImage then 2 else 1

/-- The expression
`*xsize * *ysize * (*components) * (hdrImage ? sizeof(uint16_t) : sizeof(uint8_t))`,
evaluated in `size_t`. -/
def expectedSize (s : DecState) : Nat :=
  mulSizeT (mulSizeT (mulSizeT s.out.xsize s.out.ysize) (toSizeT s.out.components))
    (sampleBytes s.hdrImage)

/-- The handling of `JXL_DEC_COLOR_ENCODING` (lines 117-128). -/
def onColorEncoding (e : DecEvent) (s : DecState) : Flow DecState :=
  let s := s.call .getICCProfileSize
  match e.iccSize with
  | none => .ret false s
  | some icc_size =>
    let s := { s with out := { s.out with icc_profile := resize s.out.icc_profile icc_size } }
    let s := s.call (.getColorAsICCProfile s.out.icc_profile.length)
    match e.icc with
    | none => .ret false s
    | some bytes =>
      .next { s with out := { s.out with
        icc_profile := writeAt s.out.icc_profile 0 (bytes.take s.out.icc_profile.length) } }

/-- The handling of `JXL_DEC_NEED_IMAGE_OUT_BUFFER` (lines 130-147). -/
def onNeedImageOutBuffer (e : DecEvent) (s : DecState) : Flow DecState :=
  let s := s.call (.imageOutBufferSize s.format)
  match e.bufferSize with
  | none => .ret false s
  | some buffer_size =>
    if buffer_size ≠ expectedSize s then .ret false s
    else
      let s := { s with out := { s.out with pixels := resize s.out.pixels (expectedSize s) } }
      let pixelsBufferSize := mulSizeT s.out.pixels.length (sampleBytes s.hdrImage)
      let s := s.call (.setImageOutBuffer s.format s.out.pixels.length pixelsBufferSize)
      if e.setBufferOk then .next s else .ret false s

/-- One iteration of the decode loop (lines 74-158). -/
def decodeStep (e : DecEvent) (s : DecState) : Flow DecState :=
  let s := s.call (.processInput e.status)
  if e.status = .error then .ret false s
  else if e.status = .needMoreInput then .ret false s
  else if e.status = .basicInfo then
    let s := s.call .getBasicInfo
    match e.basicInfo with
    | none => .ret false s
    | some info => .next (onBasicInfo info s)
  else if e.status = .colorEncoding then onColorEncoding e s
  else if e.status = .needImageOutBuffer then onNeedImageOutBuffer e s
  else if e.status = .fullImage then .next s
  else if e.status = .success then .ret true s
  else .ret false s

/-- The loop `for (;;)` of `DecodeJpegXlOneShot`, run against the successive
answers of the engine.  The return value is `none` when the answers run out
before the loop returns. -/
def decodeLoop : List DecEvent → DecState → Option Bool × DecState
  | [], s => (none, s)
  | e :: rest, s =>
    match decodeStep e s with
    | .next s1 => decodeLoop rest s1
    | .ret b s1 => (some b, s1)

/-- The state in which `DecodeJpegXlOneShot` enters its loop (lines 61-71). -/
def decodeStart (out : DecodeOut) (calls : List DecCall) : DecState :=
  { out := { out with useFloats := false }
    format := ⟨4, .uint8, .nativeEndian, 0⟩
    bitDepth := 8
    hdrImage := false
    calls := calls ++ [.setKeepOrientation, .setUnpremultiplyAlpha, .setInput, .closeInput] }

/-- Result of a decode call: the returned boolean (`none`: the loop has not
returned on the given answers), the out-parameters and the call log. -/
structure DecodeResult where
  ret : Option Bool
  out : DecodeOut
  calls : List DecCall
  deriving DecidableEq

/-- The function `DecodeJpegXlOneShot` (lines 36-160). -/
def DecodeJpegXlOneShot (eng : DecEngine) (out : DecodeOut) : DecodeResult :=
  if eng.subscribeEventsOk = false then ⟨some false, out, [.subscribeEvents]⟩
  else if eng.setParallelRunnerOk = false then
    ⟨some false, out, [.subscribeEvents, .setParallelRunner]⟩
  else
    let r := decodeLoop eng.events (decodeStart out [.subscribeEvents, .setParallelRunner])
    ⟨r.1, r.2.out, r.2.calls⟩

/-! ## `DecodeBasicInfo` -/

/-- Out-parameters of `DecodeBasicInfo` and the call log. -/
structure InfoState where
  xsize : Nat
  ysize : Nat
  calls : List DecCall
  deriving DecidableEq

/-- Records one engine call. -/
def InfoState.call (s : InfoState) (c : DecCall) : InfoState :=
  { s with calls := s.calls ++ [c] }

/-- One iteration of the loop of `DecodeBasicInfo` (lines 185-206). -/
def basicInfoStep (e : DecEvent) (s : InfoState) : Flow InfoState :=
  let s := s.call (.processInput e.status)
  if e.status = .error then .ret false s
  else if e.status = .needMoreInput then .ret false s
  else if e.status = .basicInfo then
    let s := s.call .getBasicInfo
    match e.basicInfo with
    | none => .ret false s
    | some info => .ret true { s with xsize := info.xsize, ysize := info.ysize }
  else if e.status = .needImageOutBuffer then .ret false s
  else if e.status = .fullImage then .ret false s
  else if e.status = .success then .ret false s
  else .ret false s

/-- The loop `for (;;)` of `DecodeBasicInfo`. -/
def basicInfoLoop : List DecEvent → InfoState → Option Bool × InfoState
  | [], s => (none, s)
  | e :: rest, s =>
    match basicInfoStep e s with
    | .next s1 => basicInfoLoop rest s1
    | .ret b s1 => (some b, s1)

/-- Result of `DecodeBasicInfo`: the returned boolean (`none`: the loop has
not returned on the given answers), the out-parameters and the call log. -/
structure InfoResult where
  ret : Option Bool
  xsize : Nat
  ysize : Nat
  calls : List DecCall
  deriving DecidableEq

/-- The function `DecodeBasicInfo` (lines 162-208); `xsize` and `ysize` are
the values the caller left in the out-parameters. -/
def DecodeBasicInfo (eng : DecEngine) (xsize ysize : Nat) : InfoResult :=
  if eng.subscribeEventsOk = false then ⟨some false, xsize, ysize, [.subscribeEvents]⟩
  else if eng.setParallelRunnerOk = false then
    ⟨some false, xsize, ysize, [.subscribeEvents, .setParallelRunner]⟩
  else
    let r := basicInfoLoop eng.events
      ⟨xsize, ysize, [.subscribeEvents, .setParallelRunner, .setInput, .closeInput]⟩
    ⟨r.1, r.2.xsize, r.2.ysize, r.2.calls⟩

/-! ## `EncodeJxlOneshot` -/

/-- Modelled from the spec: the colour-space enumeration of `JxlWorker.hpp`
(the header is not among the sources); the spec gives its two values, RGB and
RGBA, and the source names them `rgb` and `rgba`. -/
inductive JxlPixelType
  | rgb
  | rgba
  deriving DecidableEq

/-- Modelled from the spec: the compression-option enumeration of
`JxlWorker.hpp` (the header is not among the sources); the spec gives its two
values, Lossless and Lossy, and the source names them `loseless` and
`loosy`. -/
inductive JxlCompressionOption
  | loseless
  | loosy
  deriving DecidableEq

/-- A C `float` argument.  The driver only forwards such values; a finite one
is a rational number. -/
abbrev CFloat := ℚ

/-- The libjxl constant `JXL_TRUE` (`#define JXL_TRUE 1` in `jxl/types.h`). -/
def JXL_TRUE : Int := 1

/-- The frame distance that requests mathematically lossless coding (spec
glossary, "Frame distance": 0 requests mathematically lossless). -/
def LOSSLESS_DISTANCE : CFloat := 0

/-- Extra channel types (`JXL_CHANNEL_*`). -/
inductive JxlExtraChannelType
  | alpha
  | other (code : Nat)
  deriving DecidableEq

/-- The fields of `JxlExtraChannelInfo` that the driver reads or writes. -/
structure JxlExtraChannelInfo where
  type : JxlExtraChannelType
  bits_per_sample : Nat
  alpha_premultiplied : Bool
  deriving DecidableEq

/-- Status codes of the encoder. -/
inductive JxlEncoderStatus
  | success
  | error
  | needMoreOutput
  | other (code : Nat)
  deriving DecidableEq

/-- What the engine answers to one `JxlEncoderProcessOutput`: the bytes it has
ready and the status it returns.  It stores at most `avail_out` of them. -/
structure EncOutput where
  bytes : List Byte
  status : JxlEncoderStatus
  deriving DecidableEq

/-- An encoder engine: the values its two initialisers produce, the results of
the fallible configuration calls (`false`: not `JXL_ENC_SUCCESS`) and the
answers to the successive `JxlEncoderProcessOutput` calls. -/
structure EncEngine where
  setParallelRunnerOk : Bool
  initBasicInfo : JxlBasicInfo
  setBasicInfoOk : Bool
  initExtraChannelInfo : JxlExtraChannelType → JxlExtraChannelInfo
  setExtraChannelInfoOk : Bool
  setColorEncodingOk : Bool
  addImageFrameOk : Bool
  setFrameDistanceOk : Bool
  outputs : List EncOutput

/-- Calls made on the encoder, with their arguments.  For `processOutput`,
`written` is what the engine stored during the call. -/
inductive EncCall
  | setParallelRunner
  | setBasicInfo (info : JxlBasicInfo)
  | setExtraChannelInfo (index : Nat) (info : JxlExtraChannelInfo)
  | setColorEncoding (is_gray : Bool)
  | frameSettingsCreate
  | addImageFrame (format : JxlPixelFormat) (buffer : List Byte) (size : Nat)
  | setFrameDistance (distance : CFloat)
  | closeInput
  | processOutput (avail_out : Nat) (written : List Byte) (status : JxlEncoderStatus)
  deriving DecidableEq

/-- The output buffer while it is drained: the vector `compressed`, the
offset `next_out - compressed->data()`, `avail_out`, and the call log. -/
structure DrainState where
  compressed : List Byte
  offset : Nat
  avail_out : Nat
  calls : List EncCall
  deriving DecidableEq

/-- One `JxlEncoderProcessOutput`: the engine stores its bytes, as many as fit
in `avail_out`, at `next_out` and advances `next_out` and `avail_out`. -/
def processOutput (r : EncOutput) (s : DrainState) : DrainState :=
  let written := r.bytes.take s.avail_out
  { compressed := writeAt s.compressed s.offset written
    offset := s.offset + written.length
    avail_out := s.avail_out - written.length
    calls := s.calls ++ [.processOutput s.avail_out written r.status] }

/-- The growth of the buffer after `JXL_ENC_NEED_MORE_OUTPUT` (lines 311-314).
No wrap-around of `size() * 2` is modelled: it would need a vector of
`2 ^ 63` bytes first. -/
def growOutput (s : DrainState) : DrainState :=
  let offset := s.offset
  let compressed := resize s.compressed (s.compressed.length * 2)
  { s with compressed := compressed, offset := offset, avail_out := compressed.length - offset }

/-- The loop `while (process_result == JXL_ENC_NEED_MORE_OUTPUT)` (lines
308-316), run against the successive answers of the engine; the status is `none`
when the answers run out while the engine still asks for more output. -/
def drainLoop : List EncOutput → DrainState → Option JxlEncoderStatus × DrainState
  | [], s => (none, s)
  | r :: rest, s =>
    let s1 := processOutput r s
    if r.status = .needMoreOutput then drainLoop rest (growOutput s1)
    else (some r.status, s1)

/-- Result of `EncodeJxlOneshot`: the returned boolean (`none`: the drain
loop has not ended on the given answers), the vector `compressed` and the call
log. -/
structure EncodeResult where
  ret : Option Bool
  compressed : List Byte
  calls : List EncCall
  deriving DecidableEq

/-- Lines 304-322 of `EncodeJxlOneshot`: the drain of the encoder output
into `compressed`. -/
def drainOutput (outputs : List EncOutput) (compressed : List Byte)
    (calls : List EncCall) : EncodeResult :=
  let compressed := resize compressed 64
  let r := drainLoop outputs ⟨compressed, 0, compressed.length - 0, calls⟩
  match r.1 with
  | none => ⟨none, r.2.compressed, r.2.calls⟩
  | some process_result =>
    let compressed := resize r.2.compressed r.2.offset
    if process_result ≠ .success then ⟨some false, compressed, r.2.calls⟩
    else ⟨some true, compressed, r.2.calls⟩

/-- The pixel format selected for a colour space (lines 232-240). -/
def pixelFormatOf (colorspace : JxlPixelType) : JxlPixelFormat :=
  match colorspace with
  | .rgb => ⟨3, .uint8, .bigEndian, 0⟩
  | .rgba => ⟨4, .uint8, .bigEndian, 0⟩

/-- The basic info handed to `JxlEncoderSetBasicInfo` (lines 242-254). -/
def encodeBasicInfo (init : JxlBasicInfo) (xsize ysize : Nat)
    (colorspace : JxlPixelType) (compression_option : JxlCompressionOption) : JxlBasicInfo :=
  let basic_info := { init with
    xsize := xsize
    ysize := ysize
    bits_per_sample := 32
    exponent_bits_per_sample := 8
    uses_original_profile := if compression_option = .loosy then false else true
    num_color_channels := 3 }
  if colorspace = .rgba then { basic_info with num_extra_channels := 1, alpha_bits := 8 }
  else basic_info

/-- The function `EncodeJxlOneshot` (lines 218-323); `compressed` is the
vector the caller passes in.  The stores to `basic_info.num_color_channels`
on lines 262 and 265 come after `JxlEncoderSetBasicInfo` and are never read,
so they leave no trace here. -/
def EncodeJxlOneshot (eng : EncEngine) (pixels : List Byte) (xsize ysize : Nat)
    (compressed : List Byte) (colorspace : JxlPixelType)
    (compression_option : JxlCompressionOption) (compression_distance : CFloat) :
    EncodeResult :=
  let calls : List EncCall := [.setParallelRunner]
  if eng.setParallelRunnerOk = false then ⟨some false, compressed, calls⟩
  else
    let pixel_format := pixelFormatOf colorspace
    let basic_info := encodeBasicInfo eng.initBasicInfo xsize ysize colorspace compression_option
    let calls := calls ++ [.setBasicInfo basic_info]
    if eng.setBasicInfoOk = false then ⟨some false, compressed, calls⟩
    else
      let channelInfo : JxlExtraChannelInfo :=
        { eng.initExtraChannelInfo .alpha with bits_per_sample := 8, alpha_premultiplied := false }
      let calls := match colorspace with
        | .rgb => calls
        | .rgba => calls ++ [.setExtraChannelInfo 0 channelInfo]
      if colorspace = .rgba ∧ eng.setExtraChannelInfoOk = false then
        ⟨some false, compressed, calls⟩
      else
        let calls := calls ++ [.setColorEncoding (decide (pixel_format.num_channels < 3))]
        if eng.setColorEncodingOk = false then ⟨some false, compressed, calls⟩
        else
          let calls := calls ++
            [.frameSettingsCreate, .addImageFrame pixel_format pixels (1 * pixels.length)]
          if eng.addImageFrameOk = false then ⟨some false, compressed, calls⟩
          else
            let calls := match compression_option with
              | .loseless => calls ++ [.setFrameDistance ((JXL_TRUE : Int) : CFloat)]
              | .loosy => calls ++ [.setFrameDistance compression_distance]
            if eng.setFrameDistanceOk = false then ⟨some false, compressed, calls⟩
            else drainOutput eng.outputs compressed (calls ++ [.closeInput])

/-! ## One encoded input, decoded by both drivers -/

/-- The decoder settings in force when a loop starts: whether
`JxlDecoderSetKeepOrientation(dec, JXL_TRUE)` and
`JxlDecoderSetUnpremultiplyAlpha(dec, JXL_TRUE)` have been called. -/
structure DecSettings where
  keepOrientation : Bool
  unpremultiplyAlpha : Bool
  deriving DecidableEq

/-- The settings that a call log establishes. -/
def settingsOf (calls : List DecCall) : DecSettings :=
  ⟨decide (DecCall.setKeepOrientation ∈ calls), decide (DecCall.setUnpremultiplyAlpha ∈ calls)⟩

/-- An encoded input as the engine sees it: the results of the two set-up
calls, which come before any setting, and the answers of the loop iterations,
which may depend on the settings made before the loop. -/
structure DecInput where
  subscribeEventsOk : Bool
  setParallelRunnerOk : Bool
  events : DecSettings → List DecEvent

/-- The engine run that an input gives under the given settings. -/
def DecInput.under (input : DecInput) (settings : DecSettings) : DecEngine :=
  ⟨input.subscribeEventsOk, input.setParallelRunnerOk, input.events settings⟩

/-- The settings `DecodeJpegXlOneShot` makes before its loop (lines 61-62). -/
def fullImageSettings : DecSettings := ⟨true, true⟩

/-- The settings `DecodeBasicInfo` makes before its loop: none (lines
162-182 call neither setter). -/
def basicInfoSettings : DecSettings := ⟨false, false⟩

/-- The function `DecodeJpegXlOneShot` run on an encoded input: the engine
answers under the settings of lines 61-62, which are the settings its call
log shows (`fullImageSettings_logged`). -/
def DecodeJpegXlOneShotOn (input : DecInput) (out : DecodeOut) : DecodeResult :=
  DecodeJpegXlOneShot (input.under fullImageSettings) out

/-- The function `DecodeBasicInfo` run on an encoded input: the engine answers
with no setting made, as its call log shows (`basicInfoSettings_logged`). -/
def DecodeBasicInfoOn (input : DecInput) (xsize ysize : Nat) : InfoResult :=
  DecodeBasicInfo (input.under basicInfoSettings) xsize ysize

/-- Width and height of the basic info in the first answer of the engine, if
the first answer is a Basic-info whose query succeeds. -/
def firstDimensions (events : List DecEvent) : Option (Nat × Nat) :=
  match events with
  | [] => none
  | e :: _ =>
    if e.status = .basicInfo then e.basicInfo.map (fun info => (info.xsize, info.ysize))
    else none

/-- Width and height of every basic info the engine reports before its first
`JXL_DEC_SUCCESS`, in order. -/
def reportedDimensions : List DecEvent → List (Nat × Nat)
  | [] => []
  | e :: rest =>
    if e.status = .success then []
    else if e.status = .basicInfo then
      match e.basicInfo with
      | some info => (info.xsize, info.ysize) :: reportedDimensions rest
      | none => reportedDimensions rest
    else reportedDimensions rest

/-! ## Vocabulary of the statements -/

/-- The statuses the engine reports before its first `JXL_DEC_SUCCESS`. -/
def statusesBeforeSuccess (events : List DecEvent) : List JxlDecoderStatus :=
  (events.map (fun e => e.status)).takeWhile (fun st => decide (st ≠ .success))

/-- What the size computation and the pixel format depend on: the metadata
out-parameters, `hdrImage` and `format`. -/
def DecState.meta (s : DecState) : Nat × Nat × Int × Int × Bool × Bool × JxlPixelFormat :=
  (s.out.xsize, s.out.ysize, s.out.depth, s.out.components, s.out.useFloats, s.hdrImage, s.format)

/-- Whether a logged call is a `JxlDecoderProcessInput`. -/
def DecCall.isProcessInput : DecCall → Bool
  | .processInput _ => true
  | _ => false

/-- Whether a logged call queries or sets the image-out buffer. -/
def DecCall.isBufferCall : DecCall → Bool
  | .imageOutBufferSize _ => true
  | .setImageOutBuffer _ _ _ => true
  | _ => false

/-- A logged call about the image-out buffer uses the format of state `s`,
and a buffer handed over has the length expected in state `s`. -/
def DecCall.agreesWith (c : DecCall) (s : DecState) : Prop :=
  match c with
  | .imageOutBufferSize format => format = s.format
  | .setImageOutBuffer format bufferLength _ =>
    format = s.format ∧ bufferLength = expectedSize s
  | _ => True

/-- The sample type that goes with the float-sample flag. -/
def sampleTypeOf (useFloats : Bool) : JxlDataType :=
  if useFloats then .float16 else .uint8

/-- The bytes the engine stored during the logged calls, in call order. -/
def writtenBytes : List EncCall → List Byte
  | [] => []
  | .processOutput _ written _ :: cs => written ++ writtenBytes cs
  | _ :: cs => writtenBytes cs

/-- A logged call is the `JxlEncoderProcessOutput` that received the answer
`r`: it stored the first bytes of `r.bytes`, as many as `avail_out` allowed. -/
def EncCall.answers (c : EncCall) (r : EncOutput) : Prop :=
  ∃ avail_out, c = .processOutput avail_out (r.bytes.take avail_out) r.status

/-- The write position and the remaining capacity add up to the buffer. -/
def DrainState.Inv (s : DrainState) : Prop :=
  s.offset + s.avail_out = s.compressed.length

/-- The calls logged by the drain of the output alone. -/
def drainCalls (outs : List EncOutput) (compressed : List Byte) : List EncCall :=
  (drainOutput outs compressed []).calls

/-! ## Sample engines -/

/-- An engine answer that carries a status and nothing else. -/
def statusOnly (st : JxlDecoderStatus) : DecEvent :=
  ⟨st, none, none, none, none, false⟩

/-- An engine answer `JXL_DEC_BASIC_INFO` whose basic info has the given
dimensions, bit depth, colour-channel count and extra-channel count. -/
def reportsBasicInfo (xsize ysize bits colors extras : Nat) : DecEvent :=
  ⟨.basicInfo, some ⟨xsize, ysize, bits, 0, false, 1, colors, extras, 0⟩, none, none, none, false⟩

/-- An engine answer `JXL_DEC_NEED_IMAGE_OUT_BUFFER` that requires `n` bytes
and accepts the buffer. -/
def requestsBuffer (n : Nat) : DecEvent :=
  ⟨.needImageOutBuffer, none, none, none, some n, true⟩

/-- Out-parameters as a caller that zero-initialises them passes them. -/
def emptyOut : DecodeOut := ⟨[], 0, 0, [], 0, 0, false, 0⟩

/-- A decoder engine whose set-up calls succeed. -/
def engineOf (events : List DecEvent) : DecEngine := ⟨true, true, events⟩

/-- The usual event order for a 1x1 image with three 16-bit channels. -/
def hdrEngine : DecEngine :=
  engineOf [reportsBasicInfo 1 1 16 3 0, requestsBuffer 6, statusOnly .fullImage,
    statusOnly .success]

/-- The usual event order for a 1x1 image with three 8-bit channels. -/
def sdrEngine : DecEngine :=
  engineOf [reportsBasicInfo 1 1 8 3 0, requestsBuffer 3, statusOnly .fullImage,
    statusOnly .success]

/-- An encoder engine on which every configuration call succeeds, with the
initial values libjxl documents, and which answers with `outputs`. -/
def encoderOf (outputs : List EncOutput) : EncEngine :=
  { setParallelRunnerOk := true
    initBasicInfo := ⟨0, 0, 8, 0, false, 1, 3, 0, 0⟩
    setBasicInfoOk := true
    initExtraChannelInfo := fun t => ⟨t, 8, false⟩
    setExtraChannelInfoOk := true
    setColorEncodingOk := true
    addImageFrameOk := true
    setFrameDistanceOk := true
    outputs := outputs }

/-- An encoder that fills 64 bytes, asks for more room, and ends with 2 more
bytes. -/
def twoChunkEncoder : EncEngine :=
  encoderOf [⟨List.replicate 64 7, .needMoreOutput⟩, ⟨[1, 2], .success⟩]

/-- The length C1 states for the pixel buffer: `width * height *
componentCount * sampleByteWidth` over the returned out-values, with
`sampleByteWidth` 2 when the float-sample flag is true and 1 otherwise. -/
def claimedLength (out : DecodeOut) : Nat :=
  out.xsize * out.ysize * out.components.toNat * (if out.useFloats = true then 2 else 1)

/-- Basic-info for a 1x1 image with three 8-bit channels, then Success: no
buffer is ever requested. -/
def noBufferEngine : DecEngine :=
  engineOf [reportsBasicInfo 1 1 8 3 0, statusOnly .success]

/-- Basic-info for a 1x1 image, a buffer request for its 3 bytes, then a
second Basic-info for a 2x2 image. -/
def lateInfoEngine : DecEngine :=
  engineOf [reportsBasicInfo 1 1 8 3 0, requestsBuffer 3, reportsBasicInfo 2 2 8 3 0,
    statusOnly .success]

/-- Basic-info for a 2^31 x 2^31 image with an extra channel, whose size in
bytes, 2^64, is 0 in `size_t`, and a buffer request for 0 bytes. -/
def wrapEngine : DecEngine :=
  engineOf [reportsBasicInfo (2 ^ 31) (2 ^ 31) 8 3 1, requestsBuffer 0, statusOnly .success]

/-- Basic-info reported twice for a 1x1 image, first with 16-bit then with
8-bit channels, and a buffer request for 6 bytes. -/
def twoDepthsEngine : DecEngine :=
  engineOf [reportsBasicInfo 1 1 16 3 0, reportsBasicInfo 1 1 8 3 0, requestsBuffer 6,
    statusOnly .success]

/-- A buffer request for 0 bytes ahead of the Basic-info of a 1x1 image with
three 16-bit channels. -/
def earlyBufferEngine : DecEngine :=
  engineOf [requestsBuffer 0, reportsBasicInfo 1 1 16 3 0, statusOnly .success]

/-- Basic-info reported twice, for a 1x1 and then for a 2x2 image. -/
def twoSizesEngine : DecEngine :=
  engineOf [reportsBasicInfo 1 1 8 3 0, reportsBasicInfo 2 2 8 3 0, statusOnly .success]

/-- Out-parameters of a caller whose depth variable holds 16. -/
def staleDepthOut : DecodeOut := ⟨[], 0, 0, [], 16, 0, false, 0⟩

/-- An engine answer `JXL_DEC_BASIC_INFO` for three 8-bit channels with the
given dimensions and orientation code. -/
def reportsOriented (xsize ysize orientation : Nat) : DecEvent :=
  ⟨.basicInfo, some ⟨xsize, ysize, 8, 0, false, orientation, 3, 0, 0⟩, none, none, none, false⟩

/-- An input that the engine answers in the same way under all settings. -/
def sameUnderAllSettings (eng : DecEngine) : DecInput :=
  ⟨eng.subscribeEventsOk, eng.setParallelRunnerOk, fun _ => eng.events⟩

/-- An image stored 2 wide and 1 high with orientation code 6 (rotated by a
quarter turn), answered the way libjxl documents
`JxlDecoderSetKeepOrientation`: with it the basic info has the stored 2x1 and
code 6, without it the displayed 1x2 and the identity code 1. -/
def rotatedInput : DecInput :=
  ⟨true, true, fun settings =>
    if settings.keepOrientation = true then
      [reportsOriented 2 1 6, requestsBuffer 6, statusOnly .fullImage, statusOnly .success]
    else
      [reportsOriented 1 2 1, requestsBuffer 6, statusOnly .fullImage, statusOnly .success]⟩

/-- A square 2x2 image stored with orientation code 6: the two settings give
different orientation codes and the same dimensions. -/
def rotatedSquareInput : DecInput :=
  ⟨true, true, fun settings =>
    if settings.keepOrientation = true then
      [reportsOriented 2 2 6, requestsBuffer 12, statusOnly .fullImage, statusOnly .success]
    else
      [reportsOriented 2 2 1, requestsBuffer 12, statusOnly .fullImage, statusOnly .success]⟩

/-! ## Lemmas -/

theorem expectedSize_eq (s : DecState) :
    expectedSize s =
      (s.out.xsize * s.out.ysize * toSizeT s.out.components * sampleBytes s.hdrImage) % 2 ^ 64 := by
  simp [expectedSize, mulSizeT, SIZE_MOD, Nat.mul_mod, Nat.mod_mod]

theorem baseComponents_ge (info : JxlBasicInfo) : 3 ≤ baseComponents info := by
  unfold baseComponents
  simp only []
  split_ifs <;> omega

theorem baseComponents_extra (info : JxlBasicInfo) (h : 0 < info.num_extra_channels) :
    baseComponents info = 4 := by
  unfold baseComponents
  simp [h]

theorem onBasicInfo_components (info : JxlBasicInfo) (s : DecState) :
    (onBasicInfo info s).out.components = baseComponents info := by
  unfold onBasicInfo
  simp only [DecState.call]
  split_ifs <;> rfl

theorem writtenBytes_append (a b : List EncCall) :
    writtenBytes (a ++ b) = writtenBytes a ++ writtenBytes b := by
  induction a with
  | nil => rfl
  | cons c cs ih => cases c <;> simp [writtenBytes, ih]

theorem processOutput_inv (r : EncOutput) (s : DrainState) (h : s.Inv) :
    (processOutput r s).Inv ∧
    (processOutput r s).compressed.take (processOutput r s).offset =
      s.compressed.take s.offset ++ r.bytes.take s.avail_out := by
  unfold DrainState.Inv at h ⊢
  have hlen : (r.bytes.take s.avail_out).length ≤ s.avail_out := by
    simp [List.length_take]
  have ho : s.offset ≤ s.compressed.length := by omega
  constructor
  · simp only [processOutput, writeAt, List.length_append, List.length_take, List.length_drop]
    omega
  · simp only [processOutput, writeAt]
    apply List.take_left'
    simp only [List.length_append, List.length_take]
    omega

theorem growOutput_inv (s : DrainState) (h : s.Inv) :
    (growOutput s).Inv ∧ (growOutput s).calls = s.calls ∧
    (growOutput s).compressed.take (growOutput s).offset = s.compressed.take s.offset := by
  unfold DrainState.Inv at h ⊢
  have ho : s.offset ≤ s.compressed.length := by omega
  have hr : resize s.compressed (s.compressed.length * 2)
      = s.compressed ++ List.replicate s.compressed.length 0 := by
    unfold resize
    rw [List.take_of_length_le (by omega)]
    congr 2
    omega
  refine ⟨?_, rfl, ?_⟩
  · simp only [growOutput, hr, List.length_append, List.length_replicate]
    omega
  · simp only [growOutput, hr]
    rw [List.take_append_of_le_length ho]

theorem drainLoop_spec (t : EncOutput) (rest : List EncOutput)
    (ht : t.status ≠ .needMoreOutput) :
    ∀ (pre : List EncOutput) (s : DrainState), s.Inv →
      (∀ r ∈ pre, r.status = .needMoreOutput) →
      ∃ s1 extra, drainLoop (pre ++ t :: rest) s = (some t.status, s1) ∧ s1.Inv ∧
        s1.calls = s.calls ++ extra ∧ List.Forall₂ EncCall.answers extra (pre ++ [t]) ∧
        s1.compressed.take s1.offset = s.compressed.take s.offset ++ writtenBytes extra := by
  intro pre
  induction pre with
  | nil =>
    intro s hs _
    obtain ⟨h1, h2⟩ := processOutput_inv t s hs
    refine ⟨processOutput t s, [.processOutput s.avail_out (t.bytes.take s.avail_out) t.status],
      ?_, h1, rfl, ?_, ?_⟩
    · simp [drainLoop, ht]
    · exact List.Forall₂.cons ⟨_, rfl⟩ List.Forall₂.nil
    · simpa [writtenBytes] using h2
  | cons r pre ih =>
    intro s hs hpre
    have hr : r.status = .needMoreOutput := hpre r (List.mem_cons_self _ _)
    obtain ⟨h1, h2⟩ := processOutput_inv r s hs
    obtain ⟨g1, g2, g3⟩ := growOutput_inv _ h1
    obtain ⟨s1, extra, e1, e2, e3, e4, e5⟩ :=
      ih (growOutput (processOutput r s)) g1 (fun x hx => hpre x (List.mem_cons_of_mem _ hx))
    refine ⟨s1, .processOutput s.avail_out (r.bytes.take s.avail_out) r.status :: extra,
      ?_, e2, ?_, ?_, ?_⟩
    · simp [drainLoop, hr, e1]
    · rw [e3, g2]; simp [processOutput]
    · exact List.Forall₂.cons ⟨_, rfl⟩ e4
    · rw [e5, g3, h2]; simp [writtenBytes]

theorem drainLoop_calls_append : ∀ (outs : List EncOutput) (s : DrainState) (pre : List EncCall),
    drainLoop outs { s with calls := pre ++ s.calls } =
      ((drainLoop outs s).1, { (drainLoop outs s).2 with calls := pre ++ (drainLoop outs s).2.calls }) := by
  intro outs
  induction outs with
  | nil => intro s pre; simp [drainLoop]
  | cons r rest ih =>
    intro s pre
    have hp : processOutput r { s with calls := pre ++ s.calls } =
        { processOutput r s with calls := pre ++ (processOutput r s).calls } := by
      simp [processOutput]
    have hg : growOutput { processOutput r s with calls := pre ++ (processOutput r s).calls } =
        { growOutput (processOutput r s) with
          calls := pre ++ (growOutput (processOutput r s)).calls } := by
      simp [growOutput]
    by_cases hr : r.status = .needMoreOutput
    · simp only [drainLoop, hr, if_true]
      rw [hp, hg, ih]
    · simp only [drainLoop, hr, if_false]
      rw [hp]

theorem drainOutput_calls_eq (outs : List EncOutput) (compressed : List Byte)
    (calls : List EncCall) :
    (drainOutput outs compressed calls).calls = calls ++ drainCalls outs compressed := by
  have h := drainLoop_calls_append outs ⟨resize compressed 64, 0, (resize compressed 64).length - 0, []⟩ calls
  simp only [List.append_nil] at h
  simp only [drainCalls, drainOutput, h]
  cases (drainLoop outs ⟨resize compressed 64, 0, (resize compressed 64).length - 0, []⟩).1 with
  | none => rfl
  | some st => by_cases hs : st = .success <;> simp [hs]

theorem drainLoop_calls : ∀ (outs : List EncOutput) (s : DrainState),
    ∃ extra, (drainLoop outs s).2.calls = s.calls ++ extra ∧
      ∀ c ∈ extra, ∃ a w st, c = .processOutput a w st := by
  intro outs
  induction outs with
  | nil => intro s; exact ⟨[], by simp [drainLoop], by simp⟩
  | cons r rest ih =>
    intro s
    by_cases hr : r.status = .needMoreOutput
    · obtain ⟨extra, h1, h2⟩ := ih (growOutput (processOutput r s))
      refine ⟨.processOutput s.avail_out (r.bytes.take s.avail_out) r.status :: extra, ?_, ?_⟩
      · simp only [drainLoop, hr, if_true]
        rw [h1]
        simp [growOutput, processOutput, hr]
      · intro c hc
        rcases List.mem_cons.1 hc with h | h
        · exact ⟨_, _, _, h⟩
        · exact h2 c h
    · refine ⟨[.processOutput s.avail_out (r.bytes.take s.avail_out) r.status], ?_, ?_⟩
      · simp [drainLoop, hr, processOutput]
      · intro c hc
        exact ⟨_, _, _, List.mem_singleton.1 hc⟩

theorem drainCalls_processOutput (outs : List EncOutput) (compressed : List Byte) :
    ∀ c ∈ drainCalls outs compressed, ∃ a w st, c = .processOutput a w st := by
  obtain ⟨extra, h1, h2⟩ := drainLoop_calls outs
    ⟨resize compressed 64, 0, (resize compressed 64).length - 0, []⟩
  have h : drainCalls outs compressed = extra := by
    simp only [drainCalls, drainOutput]
    split
    · simpa using h1
    · split_ifs <;> simpa using h1
  rw [h]; exact h2

theorem drainCalls_not_setBasicInfo (outs : List EncOutput) (compressed : List Byte)
    (info : JxlBasicInfo) : EncCall.setBasicInfo info ∉ drainCalls outs compressed := by
  intro h
  obtain ⟨a, w, st, hc⟩ := drainCalls_processOutput outs compressed _ h
  cases hc

theorem drainCalls_not_setExtraChannelInfo (outs : List EncOutput) (compressed : List Byte)
    (i : Nat) (ch : JxlExtraChannelInfo) :
    EncCall.setExtraChannelInfo i ch ∉ drainCalls outs compressed := by
  intro h
  obtain ⟨a, w, st, hc⟩ := drainCalls_processOutput outs compressed _ h
  cases hc

theorem statusesBeforeSuccess_cons (e : DecEvent) (rest : List DecEvent) :
    statusesBeforeSuccess (e :: rest) =
      if e.status = .success then [] else e.status :: statusesBeforeSuccess rest := by
  by_cases h : e.status = .success <;> simp [statusesBeforeSuccess, List.takeWhile, h]

theorem expectedSize_congr (s1 s : DecState) (h : s1.meta = s.meta) :
    expectedSize s1 = expectedSize s := by
  simp only [DecState.meta, Prod.mk.injEq] at h
  obtain ⟨h1, h2, -, h4, -, h6, -⟩ := h
  simp [expectedSize, h1, h2, h4, h6]

theorem resize_length (v : List Byte) (n : Nat) : (resize v n).length = n := by
  simp only [resize, List.length_append, List.length_take, List.length_replicate]
  omega

theorem call_out (s : DecState) (c : DecCall) : (s.call c).out = s.out := rfl

theorem call_format (s : DecState) (c : DecCall) : (s.call c).format = s.format := rfl

theorem call_hdrImage (s : DecState) (c : DecCall) : (s.call c).hdrImage = s.hdrImage := rfl

theorem call_calls (s : DecState) (c : DecCall) : (s.call c).calls = s.calls ++ [c] := rfl

theorem call_meta (s : DecState) (c : DecCall) : (s.call c).meta = s.meta := rfl

theorem expectedSize_call (s : DecState) (c : DecCall) :
    expectedSize (s.call c) = expectedSize s := rfl

/-- The state after a `JXL_DEC_NEED_IMAGE_OUT_BUFFER` iteration that goes on. -/
theorem onNeedImageOutBuffer_next (e : DecEvent) (s s1 : DecState)
    (h : onNeedImageOutBuffer e s = .next s1) :
    e.bufferSize = some (expectedSize s) ∧ e.setBufferOk = true ∧
    s1 = { s with
      out := { s.out with pixels := resize s.out.pixels (expectedSize s) }
      calls := s.calls ++ [.imageOutBufferSize s.format,
        .setImageOutBuffer s.format (expectedSize s)
          (mulSizeT (expectedSize s) (sampleBytes s.hdrImage))] } := by
  unfold onNeedImageOutBuffer at h
  cases hb : e.bufferSize with
  | none => simp [hb] at h
  | some n =>
    simp only [hb, expectedSize_call, call_out, call_format, call_hdrImage] at h
    by_cases hn : n = expectedSize s
    · by_cases hok : e.setBufferOk = true
      · simp only [hn, ne_eq, not_true_eq_false, if_false, hok, if_true, Flow.next.injEq] at h
        refine ⟨by rw [hn], hok, ?_⟩
        rw [← h]
        simp [DecState.call, resize_length]
      · simp [hn, hok] at h
    · simp [hn] at h

theorem onNeedImageOutBuffer_ret (e : DecEvent) (s s1 : DecState) (b : Bool)
    (h : onNeedImageOutBuffer e s = .ret b s1) : b = false := by
  unfold onNeedImageOutBuffer at h
  cases hb : e.bufferSize with
  | none => simp [hb] at h; exact h.1
  | some n =>
    simp only [hb] at h
    split_ifs at h <;> simp at h <;> exact h.1

/-- The state after a `JXL_DEC_COLOR_ENCODING` iteration that goes on: only
the ICC profile and the call log change. -/
theorem onColorEncoding_next (e : DecEvent) (s s1 : DecState)
    (h : onColorEncoding e s = .next s1) :
    ∃ icc size, s1 = { s with
      out := { s.out with icc_profile := icc }
      calls := s.calls ++ [.getICCProfileSize, .getColorAsICCProfile size] } := by
  unfold onColorEncoding at h
  cases hi : e.iccSize with
  | none => simp [hi] at h
  | some n =>
    cases hc : e.icc with
    | none => simp [hi, hc] at h
    | some bytes =>
      simp only [hi, hc, Flow.next.injEq] at h
      refine ⟨writeAt (resize s.out.icc_profile n) 0 (bytes.take (resize s.out.icc_profile n).length),
        (resize s.out.icc_profile n).length, ?_⟩
      rw [← h]
      simp [DecState.call]

theorem onColorEncoding_ret (e : DecEvent) (s s1 : DecState) (b : Bool)
    (h : onColorEncoding e s = .ret b s1) : b = false := by
  unfold onColorEncoding at h
  cases hi : e.iccSize with
  | none => simp [hi] at h; exact h.1
  | some n =>
    cases hc : e.icc with
    | none => simp [hi, hc] at h; exact h.1
    | some bytes => simp [hi, hc] at h

theorem decodeStep_ret_true (e : DecEvent) (s s1 : DecState)
    (h : decodeStep e s = .ret true s1) :
    e.status = .success ∧ s1 = s.call (.processInput .success) := by
  cases hst : e.status <;> simp [decodeStep, hst] at h
  case success => exact ⟨rfl, h.symm⟩
  case basicInfo => cases hb : e.basicInfo <;> simp [hb] at h
  case colorEncoding => exact absurd (onColorEncoding_ret _ _ _ _ h) (by simp)
  case needImageOutBuffer => exact absurd (onNeedImageOutBuffer_ret _ _ _ _ h) (by simp)

theorem decodeStep_success (e : DecEvent) (s : DecState) (h : e.status = .success) :
    decodeStep e s = .ret true (s.call (.processInput .success)) := by
  simp [decodeStep, h]

theorem decodeStep_basicInfo (e : DecEvent) (s s1 : DecState) (h : e.status = .basicInfo)
    (hs : decodeStep e s = .next s1) :
    ∃ info, e.basicInfo = some info ∧
      s1 = onBasicInfo info ((s.call (.processInput .basicInfo)).call .getBasicInfo) := by
  cases hb : e.basicInfo with
  | none => simp [decodeStep, h, hb] at hs
  | some info =>
    refine ⟨info, rfl, ?_⟩
    simp [decodeStep, h, hb] at hs
    exact hs.symm

/-- One iteration that is not a basic-info report leaves the metadata alone;
it touches the pixel buffer only for `JXL_DEC_NEED_IMAGE_OUT_BUFFER`, where
the buffer gets the expected size and is handed over with the current format. -/
theorem decodeStep_other (e : DecEvent) (s s1 : DecState) (h : e.status ≠ .basicInfo)
    (hs : decodeStep e s = .next s1) :
    s1.meta = s.meta ∧
    ((e.status ≠ .needImageOutBuffer ∧ s1.out.pixels = s.out.pixels ∧
        s1.calls.filter DecCall.isBufferCall = s.calls.filter DecCall.isBufferCall) ∨
      (e.status = .needImageOutBuffer ∧ s1.out.pixels.length = expectedSize s ∧
        s1.calls = s.calls ++ [.processInput .needImageOutBuffer, .imageOutBufferSize s.format,
          .setImageOutBuffer s.format (expectedSize s)
            (mulSizeT (expectedSize s) (sampleBytes s.hdrImage))])) := by
  cases hst : e.status <;> simp [decodeStep, hst] at hs
  case basicInfo => exact absurd hst h
  case colorEncoding =>
    obtain ⟨icc, size, h1⟩ := onColorEncoding_next _ _ _ hs
    subst h1
    refine ⟨rfl, Or.inl ⟨by simp, rfl, ?_⟩⟩
    simp [DecState.call, DecCall.isBufferCall]
  case needImageOutBuffer =>
    obtain ⟨-, -, h1⟩ := onNeedImageOutBuffer_next _ _ _ hs
    subst h1
    refine ⟨rfl, Or.inr ⟨rfl, ?_, ?_⟩⟩
    · simp [resize_length, expectedSize_call]
    · simp only [call_calls, call_format, call_hdrImage, expectedSize_call, List.append_assoc,
        List.singleton_append]
  case fullImage =>
    subst hs
    refine ⟨rfl, Or.inl ⟨by simp, rfl, ?_⟩⟩
    simp [DecState.call, DecCall.isBufferCall]

theorem agreesWith_congr (c : DecCall) (s1 s : DecState) (h : s1.meta = s.meta) :
    c.agreesWith s1 ↔ c.agreesWith s := by
  have he := expectedSize_congr s1 s h
  simp only [DecState.meta, Prod.mk.injEq] at h
  obtain ⟨-, -, -, -, -, -, h7⟩ := h
  cases c <;> simp [DecCall.agreesWith, he, h7]

theorem agreesWith_of_not_bufferCall (c : DecCall) (s : DecState)
    (h : c.isBufferCall = false) : c.agreesWith s := by
  cases c <;> simp [DecCall.agreesWith, DecCall.isBufferCall] at h ⊢

theorem decodeStep_next_not_success (e : DecEvent) (s s1 : DecState)
    (h : decodeStep e s = .next s1) : e.status ≠ .success := by
  intro hs
  rw [decodeStep_success e s hs] at h
  cases h

/-- Once no further basic-info report precedes the success, a run that
returns true keeps the metadata; its pixel buffer has the expected size if it
had it already or a buffer request is still to come; and the buffer calls of
the log agree with the metadata if they did so far. -/
theorem decodeLoop_settled : ∀ (evs : List DecEvent) (s s2 : DecState),
    JxlDecoderStatus.basicInfo ∉ statusesBeforeSuccess evs →
    decodeLoop evs s = (some true, s2) →
    s2.meta = s.meta ∧
    ((s.out.pixels.length = expectedSize s ∨
        JxlDecoderStatus.needImageOutBuffer ∈ statusesBeforeSuccess evs) →
      s2.out.pixels.length = expectedSize s2) ∧
    ((∀ c ∈ s.calls, c.agreesWith s) → ∀ c ∈ s2.calls, c.agreesWith s2) := by
  intro evs
  induction evs with
  | nil => intro s s2 _ h; simp [decodeLoop] at h
  | cons e rest ih =>
    intro s s2 hno h
    rw [statusesBeforeSuccess_cons] at hno ⊢
    cases hstep : decodeStep e s with
    | ret b s1 =>
      simp only [decodeLoop, hstep, Prod.mk.injEq, Option.some.injEq] at h
      obtain ⟨hb, hs⟩ := h
      subst hb hs
      obtain ⟨hst, hs1⟩ := decodeStep_ret_true e s _ hstep
      subst hs1
      refine ⟨rfl, ?_, ?_⟩
      · intro hp
        simpa [hst, expectedSize_call, call_out] using hp
      · intro hc c hmem
        rw [call_calls, List.mem_append] at hmem
        rcases hmem with hmem | hmem
        · exact (agreesWith_congr c _ s rfl).2 (hc c hmem)
        · rw [List.mem_singleton] at hmem
          subst hmem
          trivial
    | next s1 =>
      simp only [decodeLoop, hstep] at h
      have hns := decodeStep_next_not_success e s s1 hstep
      simp only [hns, if_false, List.mem_cons, not_or] at hno ⊢
      obtain ⟨hnb, hno⟩ := hno
      obtain ⟨hm, hcase⟩ := decodeStep_other e s s1 (fun hh => hnb hh.symm) hstep
      obtain ⟨i1, i2, i3⟩ := ih s1 s2 hno h
      have hexp := expectedSize_congr s1 s hm
      refine ⟨i1.trans hm, ?_, ?_⟩
      · intro hp
        apply i2
        rcases hcase with ⟨hnn, hpx, -⟩ | ⟨-, hlen, -⟩
        · rcases hp with hp | hp | hp
          · left; rw [hpx, hexp]; exact hp
          · exact absurd hp.symm hnn
          · right; exact hp
        · left; rw [hlen, hexp]
      · intro hc
        apply i3
        intro c hmem
        rw [agreesWith_congr c s1 s hm]
        rcases hcase with ⟨-, -, hcalls⟩ | ⟨-, -, hcalls⟩
        · by_cases hbc : c.isBufferCall = true
          · have : c ∈ s1.calls.filter DecCall.isBufferCall := List.mem_filter.2 ⟨hmem, hbc⟩
            rw [hcalls] at this
            exact hc c (List.mem_filter.1 this).1
          · exact agreesWith_of_not_bufferCall c s (by simpa using hbc)
        · rw [hcalls, List.mem_append] at hmem
          rcases hmem with hmem | hmem
          · exact hc c hmem
          · simp only [List.mem_cons, List.mem_singleton, List.not_mem_nil, or_false] at hmem
            rcases hmem with rfl | rfl | rfl <;> simp [DecCall.agreesWith]

theorem toInt_lt (n : Nat) : toInt n < 2 ^ 31 := by
  unfold toInt
  split_ifs with h
  · exact_mod_cast h
  · have : n % 2 ^ 32 < 2 ^ 32 := Nat.mod_lt _ (by norm_num)
    omega

theorem baseComponents_lt (info : JxlBasicInfo) : baseComponents info < 2 ^ 31 := by
  have := toInt_lt info.num_color_channels
  unfold baseComponents
  simp only []
  split_ifs <;> omega

theorem toSizeT_baseComponents (info : JxlBasicInfo) :
    toSizeT (baseComponents info) = (baseComponents info).toNat := by
  have h1 := baseComponents_ge info
  have h2 := baseComponents_lt info
  unfold toSizeT
  rw [Int.emod_eq_of_lt (by omega) (by omega)]

/-- The state after the first basic-info report: the flags agree with each
other and with the bit depth, and the sample type follows the flag. -/
theorem onBasicInfo_synced (info : JxlBasicInfo) (s : DecState)
    (hhdr : s.hdrImage = false) (hfmt : s.format.data_type = .uint8) :
    (onBasicInfo info s).hdrImage = (onBasicInfo info s).out.useFloats ∧
    ((onBasicInfo info s).out.useFloats = true ↔ 8 < (onBasicInfo info s).out.depth) ∧
    (onBasicInfo info s).format.data_type =
      (if (onBasicInfo info s).out.useFloats = true then .float16 else .uint8) ∧
    (onBasicInfo info s).out.components = baseComponents info ∧
    (onBasicInfo info s).out.xsize = info.xsize ∧
    (onBasicInfo info s).out.ysize = info.ysize ∧
    (onBasicInfo info s).calls = s.calls ++ [.setThreads info.xsize info.ysize] := by
  unfold onBasicInfo
  by_cases h : toInt info.bits_per_sample > 8
  · simp [h, DecState.call]
  · simp [h, DecState.call, hhdr, hfmt]

theorem decodeLoop_once : ∀ (evs : List DecEvent) (s s2 : DecState),
    (statusesBeforeSuccess evs).count .basicInfo = 1 →
    decodeLoop evs s = (some true, s2) →
    ∃ info sb rest, sb.meta = s.meta ∧
      JxlDecoderStatus.basicInfo ∉ statusesBeforeSuccess rest ∧
      decodeLoop rest (onBasicInfo info sb) = (some true, s2) ∧
      (JxlDecoderStatus.needImageOutBuffer ∈
          (statusesBeforeSuccess evs).dropWhile (fun st => decide (st ≠ .basicInfo)) →
        JxlDecoderStatus.needImageOutBuffer ∈ statusesBeforeSuccess rest) ∧
      (JxlDecoderStatus.needImageOutBuffer ∉
          (statusesBeforeSuccess evs).takeWhile (fun st => decide (st ≠ .basicInfo)) →
        sb.calls.filter DecCall.isBufferCall = s.calls.filter DecCall.isBufferCall) := by
  intro evs
  induction evs with
  | nil => intro s s2 _ h; simp [decodeLoop] at h
  | cons e rest ih =>
    intro s s2 hcount h
    rw [statusesBeforeSuccess_cons] at hcount ⊢
    cases hstep : decodeStep e s with
    | ret b s1 =>
      simp only [decodeLoop, hstep, Prod.mk.injEq, Option.some.injEq] at h
      obtain ⟨hb, -⟩ := h
      subst hb
      obtain ⟨hst, -⟩ := decodeStep_ret_true e s _ hstep
      simp [hst] at hcount
    | next s1 =>
      simp only [decodeLoop, hstep] at h
      have hns := decodeStep_next_not_success e s s1 hstep
      simp only [hns, if_false] at hcount ⊢
      by_cases hbi : e.status = .basicInfo
      · obtain ⟨info, -, hs1⟩ := decodeStep_basicInfo e s s1 hbi hstep
        subst hs1
        have hc0 : (statusesBeforeSuccess rest).count .basicInfo = 0 := by
          simpa [hbi] using hcount
        refine ⟨info, (s.call (.processInput .basicInfo)).call .getBasicInfo, rest, rfl,
          List.count_eq_zero.1 hc0, h, ?_, ?_⟩
        · intro hmem
          simpa [hbi, List.dropWhile] using hmem
        · intro _
          simp [DecState.call, DecCall.isBufferCall]
      · have hc1 : (statusesBeforeSuccess rest).count .basicInfo = 1 := by
          rw [List.count_cons_of_ne (fun hh => hbi hh.symm)] at hcount
          exact hcount
        obtain ⟨info, sb, rest2, i1, i2, i3, i4, i5⟩ := ih s1 s2 hc1 h
        obtain ⟨hm, hcase⟩ := decodeStep_other e s s1 hbi hstep
        refine ⟨info, sb, rest2, i1.trans hm, i2, i3, ?_, ?_⟩
        · intro hmem
          apply i4
          simpa [hbi, List.dropWhile] using hmem
        · intro hnot
          simp only [List.takeWhile, hbi, ne_eq, not_false_eq_true, decide_True, List.mem_cons,
            not_or] at hnot
          obtain ⟨hn1, hn2⟩ := hnot
          rw [i5 hn2]
          rcases hcase with ⟨-, -, hcalls⟩ | ⟨hnb, -, -⟩
          · exact hcalls
          · exact absurd hnb.symm hn1

/-- A call of `DecodeJpegXlOneShot` that returns true has run its loop. -/
theorem decode_true (eng : DecEngine) (out : DecodeOut)
    (h : (DecodeJpegXlOneShot eng out).ret = some true) :
    ∃ s2, decodeLoop eng.events (decodeStart out [.subscribeEvents, .setParallelRunner])
        = (some true, s2) ∧
      (DecodeJpegXlOneShot eng out).out = s2.out ∧
      (DecodeJpegXlOneShot eng out).calls = s2.calls := by
  unfold DecodeJpegXlOneShot at h ⊢
  by_cases h1 : eng.subscribeEventsOk = false
  · simp [h1] at h
  by_cases h2 : eng.setParallelRunnerOk = false
  · simp [h1, h2] at h
  simp only [h1, h2, if_false] at h ⊢
  exact ⟨_, Prod.ext h rfl, rfl, rfl⟩

theorem fresh_hdrImage (sb : DecState) (out : DecodeOut) (calls : List DecCall)
    (h : sb.meta = (decodeStart out calls).meta) : sb.hdrImage = false := by
  have := congrArg (fun m => m.2.2.2.2.2.1) h
  simpa [DecState.meta, decodeStart] using this

theorem fresh_format (sb : DecState) (out : DecodeOut) (calls : List DecCall)
    (h : sb.meta = (decodeStart out calls).meta) : sb.format.data_type = .uint8 := by
  have := congrArg (fun m => m.2.2.2.2.2.2.data_type) h
  simpa [DecState.meta, decodeStart] using this

/-- In a state that keeps the metadata of the state `s1` reached by the only
basic-info report, the expected size is the claimed length in `size_t`. -/
theorem expectedSize_claimed (s2 s1 : DecState) (info : JxlBasicInfo)
    (hmeta : s2.meta = s1.meta) (hflag : s1.hdrImage = s1.out.useFloats)
    (hcomp : s1.out.components = baseComponents info) :
    expectedSize s2 = claimedLength s2.out % 2 ^ 64 := by
  simp only [DecState.meta, Prod.mk.injEq] at hmeta
  obtain ⟨-, -, -, m4, m5, m6, -⟩ := hmeta
  have hc : s2.out.components = baseComponents info := m4.trans hcomp
  have hh : s2.hdrImage = s2.out.useFloats := by rw [m6, m5]; exact hflag
  rw [expectedSize_eq, hh, hc, toSizeT_baseComponents, claimedLength, hc]
  rfl

/-! ## C1: length of the pixel buffer -/

/-- C1, as stated, fails at three engine event sequences on which
`DecodeJpegXlOneShot` returns true: Basic-info then Success with no buffer
request (the buffer keeps its 0 bytes, the product is 3); a second Basic-info
after the buffer was sized (3 bytes, the product is 12); and a 2^31 x 2^31
image with four components, whose size wraps to 0 in `size_t` (0 bytes, the
product is 2^64). -/
theorem C1_counterexample :
    ((DecodeJpegXlOneShot noBufferEngine emptyOut).ret = some true ∧
      (DecodeJpegXlOneShot noBufferEngine emptyOut).out.pixels.length = 0 ∧
      claimedLength (DecodeJpegXlOneShot noBufferEngine emptyOut).out = 3) ∧
    ((DecodeJpegXlOneShot lateInfoEngine emptyOut).ret = some true ∧
      (DecodeJpegXlOneShot lateInfoEngine emptyOut).out.pixels.length = 3 ∧
      claimedLength (DecodeJpegXlOneShot lateInfoEngine emptyOut).out = 12) ∧
    ((DecodeJpegXlOneShot wrapEngine emptyOut).ret = some true ∧
      (DecodeJpegXlOneShot wrapEngine emptyOut).out.pixels.length = 0 ∧
      claimedLength (DecodeJpegXlOneShot wrapEngine emptyOut).out = 2 ^ 64) := by
  decide

/-- C1, amended: on every engine event sequence on which `DecodeJpegXlOneShot`
returns true and in which, before Success, Basic-info is reported exactly once
and Need-image-output-buffer at least once after it, the returned pixel buffer
has length `width * height * componentCount * sampleByteWidth` computed in
`size_t` (modulo 2^64), hence exactly that product when it is below 2^64;
`sampleByteWidth` is 2 when the returned float-sample flag is true and 1
otherwise. -/
theorem C1_pixels_length (eng : DecEngine) (out : DecodeOut)
    (hret : (DecodeJpegXlOneShot eng out).ret = some true)
    (honce : (statusesBeforeSuccess eng.events).count .basicInfo = 1)
    (hbuf : JxlDecoderStatus.needImageOutBuffer ∈
      (statusesBeforeSuccess eng.events).dropWhile (fun st => decide (st ≠ .basicInfo))) :
    (DecodeJpegXlOneShot eng out).out.pixels.length =
      claimedLength (DecodeJpegXlOneShot eng out).out % 2 ^ 64 ∧
    (claimedLength (DecodeJpegXlOneShot eng out).out < 2 ^ 64 →
      (DecodeJpegXlOneShot eng out).out.pixels.length =
        claimedLength (DecodeJpegXlOneShot eng out).out) := by
  obtain ⟨s2, hloop, hout, -⟩ := decode_true eng out hret
  obtain ⟨info, sb, rest, hsb, hno, hrest, hdrop, -⟩ := decodeLoop_once _ _ _ honce hloop
  obtain ⟨hmeta, hsized, -⟩ := decodeLoop_settled _ _ _ hno hrest
  have hlen := hsized (Or.inr (hdrop hbuf))
  obtain ⟨y1, -, -, y4, -, -, -⟩ :=
    onBasicInfo_synced info sb (fresh_hdrImage sb out _ hsb) (fresh_format sb out _ hsb)
  have key : s2.out.pixels.length = claimedLength s2.out % 2 ^ 64 := by
    rw [hlen]
    exact expectedSize_claimed s2 _ _ hmeta y1 y4
  rw [hout]
  refine ⟨key, fun hlt => ?_⟩
  rw [key, Nat.mod_eq_of_lt hlt]

/-- C1, witness: the amended statement at the usual event order of a 1x1
image with three 16-bit channels (6 bytes). -/
theorem C1_pixels_length_witness :
    (DecodeJpegXlOneShot hdrEngine emptyOut).out.pixels.length =
      claimedLength (DecodeJpegXlOneShot hdrEngine emptyOut).out % 2 ^ 64 ∧
    (DecodeJpegXlOneShot hdrEngine emptyOut).out.pixels.length = 6 :=
  ⟨(C1_pixels_length hdrEngine emptyOut (by decide) (by decide) (by decide)).1, by decide⟩


/-- A call of `DecodeBasicInfo` that returns true has seen a basic info in the
first answer of the engine and returns its dimensions. -/
theorem decodeBasicInfo_true (eng : DecEngine) (xsize ysize : Nat)
    (h : (DecodeBasicInfo eng xsize ysize).ret = some true) :
    eng.subscribeEventsOk = true ∧ eng.setParallelRunnerOk = true ∧
    ∃ e rest info, eng.events = e :: rest ∧ e.status = .basicInfo ∧ e.basicInfo = some info ∧
      (DecodeBasicInfo eng xsize ysize).xsize = info.xsize ∧
      (DecodeBasicInfo eng xsize ysize).ysize = info.ysize := by
  unfold DecodeBasicInfo at h ⊢
  by_cases h1 : eng.subscribeEventsOk = false
  · simp [h1] at h
  by_cases h2 : eng.setParallelRunnerOk = false
  · simp [h1, h2] at h
  simp only [h1, h2, if_false] at h ⊢
  refine ⟨by simp_all, by simp_all, ?_⟩
  cases hev : eng.events with
  | nil => simp [hev, basicInfoLoop] at h
  | cons e rest =>
    rw [hev] at h
    cases hst : e.status <;> simp [basicInfoLoop, basicInfoStep, hst] at h
    cases hb : e.basicInfo with
    | none => simp [hb] at h
    | some info =>
      refine ⟨e, rest, info, rfl, hst, hb, ?_, ?_⟩ <;>
        simp [basicInfoLoop, basicInfoStep, hst, hb]

/-- No call of `DecodeBasicInfo` concerns the image-out buffer. -/
theorem decodeBasicInfo_no_buffer (eng : DecEngine) (xsize ysize : Nat) :
    ∀ c ∈ (DecodeBasicInfo eng xsize ysize).calls, c.isBufferCall = false := by
  unfold DecodeBasicInfo
  by_cases h1 : eng.subscribeEventsOk = false
  · simp [h1, DecCall.isBufferCall]
  by_cases h2 : eng.setParallelRunnerOk = false
  · simp [h1, h2, DecCall.isBufferCall]
  simp only [h1, h2, if_false]
  cases hev : eng.events with
  | nil => simp [basicInfoLoop, DecCall.isBufferCall]
  | cons e rest =>
    cases hst : e.status <;>
      simp [basicInfoLoop, basicInfoStep, hst, InfoState.call, DecCall.isBufferCall]
    cases hb : e.basicInfo <;> simp [DecCall.isBufferCall]

/-! ## Settings and dimensions across the two drivers -/

/-- The log of `DecodeBasicInfo` never shows a setting: the engine answers it
under `basicInfoSettings`. -/
theorem basicInfoSettings_logged (eng : DecEngine) (xsize ysize : Nat) :
    settingsOf (DecodeBasicInfo eng xsize ysize).calls = basicInfoSettings := by
  unfold DecodeBasicInfo
  by_cases h1 : eng.subscribeEventsOk = false
  · simp [h1, settingsOf, basicInfoSettings]
  by_cases h2 : eng.setParallelRunnerOk = false
  · simp [h1, h2, settingsOf, basicInfoSettings]
  simp only [h1, h2, if_false]
  cases hev : eng.events with
  | nil => simp [basicInfoLoop, settingsOf, basicInfoSettings]
  | cons e rest =>
    cases hst : e.status <;>
      simp [basicInfoLoop, basicInfoStep, hst, InfoState.call, settingsOf, basicInfoSettings]
    cases hb : e.basicInfo <;> simp

theorem decodeStep_calls_grow (e : DecEvent) (s : DecState) (c : DecCall) (hc : c ∈ s.calls) :
    (∀ s1, decodeStep e s = .next s1 → c ∈ s1.calls) ∧
    (∀ b s1, decodeStep e s = .ret b s1 → c ∈ s1.calls) := by
  have hinfo : ∀ (info : JxlBasicInfo) (t : DecState), c ∈ t.calls →
      c ∈ (onBasicInfo info t).calls := by
    intro info t ht
    unfold onBasicInfo
    simp only [DecState.call]
    split_ifs <;> exact List.mem_append_left _ ht
  constructor
  · intro s1 h
    cases hst : e.status <;> simp [decodeStep, hst] at h
    case basicInfo =>
      cases hb : e.basicInfo <;> simp [hb] at h
      subst h
      exact hinfo _ _ (by simp [DecState.call, hc])
    case colorEncoding =>
      obtain ⟨icc, size, h1⟩ := onColorEncoding_next _ _ _ h
      subst h1
      simp [DecState.call, hc]
    case needImageOutBuffer =>
      obtain ⟨-, -, h1⟩ := onNeedImageOutBuffer_next _ _ _ h
      subst h1
      simp [DecState.call, hc]
    case fullImage =>
      subst h
      simp [DecState.call, hc]
  · intro b s1 h
    cases hst : e.status <;> simp [decodeStep, hst] at h
    case basicInfo =>
      cases hb : e.basicInfo <;> simp [hb] at h
      obtain ⟨-, h⟩ := h
      subst h
      simp [DecState.call, hc]
    case colorEncoding =>
      unfold onColorEncoding at h
      cases hi : e.iccSize with
      | none =>
        simp [hi] at h
        obtain ⟨-, h⟩ := h
        subst h
        simp [DecState.call, hc]
      | some n =>
        cases hcc : e.icc with
        | none =>
          simp [hi, hcc] at h
          obtain ⟨-, h⟩ := h
          subst h
          simp [DecState.call, hc]
        | some bytes => simp [hi, hcc] at h
    case needImageOutBuffer =>
      unfold onNeedImageOutBuffer at h
      cases hb : e.bufferSize with
      | none =>
        simp [hb] at h
        obtain ⟨-, h⟩ := h
        subst h
        simp [DecState.call, hc]
      | some n =>
        simp only [hb] at h
        split_ifs at h <;> simp at h <;> obtain ⟨-, h⟩ := h <;> subst h <;>
          simp [DecState.call, hc]
    all_goals
      obtain ⟨-, h⟩ := h
      subst h
      simp [DecState.call, hc]

theorem decodeLoop_calls_grow : ∀ (evs : List DecEvent) (s : DecState) (c d : DecCall),
    c ∈ s.calls → d ∈ s.calls →
    c ∈ (decodeLoop evs s).2.calls ∧ d ∈ (decodeLoop evs s).2.calls := by
  intro evs
  induction evs with
  | nil => intro s c d hc hd; exact ⟨hc, hd⟩
  | cons e rest ih =>
    intro s c d hc hd
    cases hstep : decodeStep e s with
    | ret b s1 =>
      simp only [decodeLoop, hstep]
      exact ⟨(decodeStep_calls_grow e s c hc).2 b s1 hstep,
        (decodeStep_calls_grow e s d hd).2 b s1 hstep⟩
    | next s1 =>
      simp only [decodeLoop, hstep]
      exact ih s1 c d ((decodeStep_calls_grow e s c hc).1 s1 hstep)
        ((decodeStep_calls_grow e s d hd).1 s1 hstep)

/-- The log of `DecodeJpegXlOneShot` shows both settings once the loop is
reached: the engine answers it under `fullImageSettings`. -/
theorem fullImageSettings_logged (eng : DecEngine) (out : DecodeOut)
    (h1 : eng.subscribeEventsOk = true) (h2 : eng.setParallelRunnerOk = true) :
    settingsOf (DecodeJpegXlOneShot eng out).calls = fullImageSettings := by
  have hsub : ∀ (evs : List DecEvent) (s : DecState),
      DecCall.setKeepOrientation ∈ s.calls → DecCall.setUnpremultiplyAlpha ∈ s.calls →
      DecCall.setKeepOrientation ∈ (decodeLoop evs s).2.calls ∧
      DecCall.setUnpremultiplyAlpha ∈ (decodeLoop evs s).2.calls :=
    fun evs s => decodeLoop_calls_grow evs s _ _
  obtain ⟨k1, k2⟩ := hsub eng.events (decodeStart out [.subscribeEvents, .setParallelRunner])
    (by simp [decodeStart]) (by simp [decodeStart])
  simp [DecodeJpegXlOneShot, h1, h2, settingsOf, fullImageSettings, k1, k2]

theorem onBasicInfo_dimensions (info : JxlBasicInfo) (s : DecState) :
    (onBasicInfo info s).out.xsize = info.xsize ∧ (onBasicInfo info s).out.ysize = info.ysize := by
  unfold onBasicInfo
  simp only [DecState.call]
  split_ifs <;> exact ⟨rfl, rfl⟩

theorem reportedDimensions_cons_next (e : DecEvent) (rest : List DecEvent) (s s1 : DecState)
    (h : decodeStep e s = .next s1) :
    (e.status = .basicInfo ∧ ∃ info, e.basicInfo = some info ∧
        s1 = onBasicInfo info ((s.call (.processInput .basicInfo)).call .getBasicInfo) ∧
        reportedDimensions (e :: rest) = (info.xsize, info.ysize) :: reportedDimensions rest) ∨
    (e.status ≠ .basicInfo ∧ reportedDimensions (e :: rest) = reportedDimensions rest) := by
  have hns := decodeStep_next_not_success e s s1 h
  by_cases hb : e.status = .basicInfo
  · left
    obtain ⟨info, hi, hs1⟩ := decodeStep_basicInfo e s s1 hb h
    exact ⟨hb, info, hi, hs1, by simp [reportedDimensions, hb, hi]⟩
  · right
    exact ⟨hb, by simp [reportedDimensions, hns, hb]⟩

/-- A run that returns true returns the width and height it started with if
every basic info reported before the success carries them. -/
theorem decodeLoop_dimensions : ∀ (evs : List DecEvent) (s s2 : DecState),
    (∀ d ∈ reportedDimensions evs, d = (s.out.xsize, s.out.ysize)) →
    decodeLoop evs s = (some true, s2) →
    s2.out.xsize = s.out.xsize ∧ s2.out.ysize = s.out.ysize := by
  intro evs
  induction evs with
  | nil => intro s s2 _ h; simp [decodeLoop] at h
  | cons e rest ih =>
    intro s s2 hd h
    cases hstep : decodeStep e s with
    | ret b s1 =>
      simp only [decodeLoop, hstep, Prod.mk.injEq, Option.some.injEq] at h
      obtain ⟨hb, hs⟩ := h
      subst hb hs
      obtain ⟨-, hs1⟩ := decodeStep_ret_true e s _ hstep
      subst hs1
      exact ⟨rfl, rfl⟩
    | next s1 =>
      simp only [decodeLoop, hstep] at h
      rcases reportedDimensions_cons_next e rest s s1 hstep with
        ⟨-, info, -, hs1, hrd⟩ | ⟨hnb, hrd⟩
      · rw [hrd] at hd
        have h0 := hd _ (List.mem_cons_self _ _)
        simp only [Prod.mk.injEq] at h0
        obtain ⟨y5, y6⟩ := onBasicInfo_dimensions info
          ((s.call (.processInput .basicInfo)).call .getBasicInfo)
        rw [← hs1] at y5 y6
        have hx : s1.out.xsize = s.out.xsize := y5.trans h0.1
        have hy : s1.out.ysize = s.out.ysize := y6.trans h0.2
        obtain ⟨i1, i2⟩ := ih s1 s2
          (fun d hmem => by rw [hx, hy]; exact hd d (List.mem_cons_of_mem _ hmem)) h
        exact ⟨i1.trans hx, i2.trans hy⟩
      · rw [hrd] at hd
        obtain ⟨hm, -⟩ := decodeStep_other e s s1 hnb hstep
        simp only [DecState.meta, Prod.mk.injEq] at hm
        obtain ⟨hx, hy, -⟩ := hm
        obtain ⟨i1, i2⟩ := ih s1 s2 (fun d hmem => by rw [hx, hy]; exact hd d hmem) h
        exact ⟨i1.trans hx, i2.trans hy⟩

/-! ## C2: `DecodeBasicInfo` against `DecodeJpegXlOneShot` -/

/-- C2, as stated, fails at two inputs on which both calls return true.  On
an image stored 2x1 with a quarter-turn orientation, `DecodeBasicInfo`, which
does not set keep-orientation, returns the displayed 1x2, and
`DecodeJpegXlOneShot`, which sets it on line 61, returns the stored 2x1.  On
an engine that reports Basic-info twice, for 1x1 and then 2x2,
`DecodeBasicInfo` returns 1x1 and `DecodeJpegXlOneShot` returns 2x2. -/
theorem C2_counterexample :
    ((DecodeBasicInfoOn rotatedInput 0 0).ret = some true ∧
      (DecodeJpegXlOneShotOn rotatedInput emptyOut).ret = some true ∧
      (DecodeBasicInfoOn rotatedInput 0 0).xsize = 1 ∧
      (DecodeBasicInfoOn rotatedInput 0 0).ysize = 2 ∧
      (DecodeJpegXlOneShotOn rotatedInput emptyOut).out.xsize = 2 ∧
      (DecodeJpegXlOneShotOn rotatedInput emptyOut).out.ysize = 1) ∧
    ((DecodeBasicInfoOn (sameUnderAllSettings twoSizesEngine) 0 0).ret = some true ∧
      (DecodeJpegXlOneShotOn (sameUnderAllSettings twoSizesEngine) emptyOut).ret = some true ∧
      (DecodeBasicInfoOn (sameUnderAllSettings twoSizesEngine) 0 0).xsize = 1 ∧
      (DecodeBasicInfoOn (sameUnderAllSettings twoSizesEngine) 0 0).ysize = 1 ∧
      (DecodeJpegXlOneShotOn (sameUnderAllSettings twoSizesEngine) emptyOut).out.xsize = 2 ∧
      (DecodeJpegXlOneShotOn (sameUnderAllSettings twoSizesEngine) emptyOut).out.ysize = 2) := by
  decide

/-- C2, amended: `DecodeBasicInfo` never queries the image-out buffer size nor
sets an image-out buffer, on any input; and on every input on which both
`DecodeBasicInfo` and `DecodeJpegXlOneShot` return true, for which the first
answer of the engine reports the same width and height with the settings of
`DecodeJpegXlOneShot` (keep-orientation, unpremultiply-alpha) as without them,
and for which all the basic infos that `DecodeJpegXlOneShot` receives before
Success report one and the same width and height, the two return the same
width and height. -/
theorem C2_same_dimensions (input : DecInput) (out : DecodeOut) (xsize ysize : Nat) :
    (∀ c ∈ (DecodeBasicInfoOn input xsize ysize).calls, c.isBufferCall = false) ∧
    ((DecodeBasicInfoOn input xsize ysize).ret = some true →
      (DecodeJpegXlOneShotOn input out).ret = some true →
      firstDimensions (input.events fullImageSettings) =
        firstDimensions (input.events basicInfoSettings) →
      (∀ d1 ∈ reportedDimensions (input.events fullImageSettings),
        ∀ d2 ∈ reportedDimensions (input.events fullImageSettings), d1 = d2) →
      (DecodeBasicInfoOn input xsize ysize).xsize = (DecodeJpegXlOneShotOn input out).out.xsize ∧
      (DecodeBasicInfoOn input xsize ysize).ysize =
        (DecodeJpegXlOneShotOn input out).out.ysize) := by
  refine ⟨decodeBasicInfo_no_buffer _ xsize ysize, fun hinfo hfull hfirst hsame => ?_⟩
  obtain ⟨-, -, e, rest, info, hev, hst, hb, hx, hy⟩ := decodeBasicInfo_true _ xsize ysize hinfo
  obtain ⟨s2, hloop, hout, -⟩ := decode_true _ out hfull
  have hev1 : input.events basicInfoSettings = e :: rest := hev
  have hf : firstDimensions (input.events fullImageSettings) = some (info.xsize, info.ysize) := by
    rw [hfirst, hev1]
    simp [firstDimensions, hst, hb]
  have hloop2 : decodeLoop (input.events fullImageSettings)
      (decodeStart out [.subscribeEvents, .setParallelRunner]) = (some true, s2) := hloop
  cases hev2 : input.events fullImageSettings with
  | nil => rw [hev2] at hf; simp [firstDimensions] at hf
  | cons e2 rest2 =>
    rw [hev2] at hf hloop2 hsame
    have hst2 : e2.status = .basicInfo := by
      by_contra hne
      simp [firstDimensions, hne] at hf
    cases hb2 : e2.basicInfo with
    | none => simp [firstDimensions, hst2, hb2] at hf
    | some info2 =>
      simp only [firstDimensions, hst2, hb2, if_true, Option.map_some', Option.some.injEq,
        Prod.mk.injEq] at hf
      have hstep : decodeStep e2 (decodeStart out [.subscribeEvents, .setParallelRunner]) =
          .next (onBasicInfo info2 (((decodeStart out [.subscribeEvents, .setParallelRunner]).call
            (.processInput .basicInfo)).call .getBasicInfo)) := by
        simp [decodeStep, hst2, hb2]
      simp only [decodeLoop, hstep] at hloop2
      obtain ⟨y5, y6⟩ := onBasicInfo_dimensions info2
        (((decodeStart out [.subscribeEvents, .setParallelRunner]).call
          (.processInput .basicInfo)).call .getBasicInfo)
      have hrd : reportedDimensions (e2 :: rest2) =
          (info2.xsize, info2.ysize) :: reportedDimensions rest2 := by
        simp [reportedDimensions, hst2, hb2]
      rw [hrd] at hsame
      obtain ⟨k1, k2⟩ := decodeLoop_dimensions rest2 _ s2
        (fun d hmem => by
          rw [y5, y6]
          exact hsame d (List.mem_cons_of_mem _ hmem) _ (List.mem_cons_self _ _)) hloop2
      show (DecodeBasicInfo (input.under basicInfoSettings) xsize ysize).xsize =
          (DecodeJpegXlOneShot (input.under fullImageSettings) out).out.xsize ∧
        (DecodeBasicInfo (input.under basicInfoSettings) xsize ysize).ysize =
          (DecodeJpegXlOneShot (input.under fullImageSettings) out).out.ysize
      rw [hx, hy, hout, k1, k2, y5, y6]
      exact ⟨hf.1.symm, hf.2.symm⟩

/-- C2, witness: a square 2x2 image stored with a quarter-turn orientation,
which the engine answers with different orientation codes and the same
dimensions under the two settings. -/
theorem C2_same_dimensions_witness :
    (DecodeBasicInfoOn rotatedSquareInput 0 0).xsize =
      (DecodeJpegXlOneShotOn rotatedSquareInput emptyOut).out.xsize ∧
    (DecodeBasicInfoOn rotatedSquareInput 0 0).ysize =
      (DecodeJpegXlOneShotOn rotatedSquareInput emptyOut).out.ysize :=
  (C2_same_dimensions rotatedSquareInput emptyOut 0 0).2 (by decide) (by decide) (by decide)
    (by decide)

/-! ## C7: the float-sample flag -/

/-- C7, as stated, fails at three engine event sequences on which
`DecodeJpegXlOneShot` returns true: a 16-bit Basic-info followed by an 8-bit
one (the flag is false, yet a float16 format and a 6-byte buffer, 2 bytes per
sample, are handed over); Success alone, with 16 left in the depth
variable of the caller (the flag is false, the depth is 16); and a buffer request ahead of a
16-bit Basic-info (the flag is true, yet an 8-bit format was handed over). -/
theorem C7_counterexample :
    ((DecodeJpegXlOneShot twoDepthsEngine emptyOut).ret = some true ∧
      (DecodeJpegXlOneShot twoDepthsEngine emptyOut).out.useFloats = false ∧
      (DecodeJpegXlOneShot twoDepthsEngine emptyOut).out.pixels.length = 6 ∧
      claimedLength (DecodeJpegXlOneShot twoDepthsEngine emptyOut).out = 3 ∧
      DecCall.setImageOutBuffer ⟨3, .float16, .nativeEndian, 0⟩ 6 12 ∈
        (DecodeJpegXlOneShot twoDepthsEngine emptyOut).calls) ∧
    ((DecodeJpegXlOneShot (engineOf [statusOnly .success]) staleDepthOut).ret = some true ∧
      (DecodeJpegXlOneShot (engineOf [statusOnly .success]) staleDepthOut).out.useFloats = false ∧
      (DecodeJpegXlOneShot (engineOf [statusOnly .success]) staleDepthOut).out.depth = 16) ∧
    ((DecodeJpegXlOneShot earlyBufferEngine emptyOut).ret = some true ∧
      (DecodeJpegXlOneShot earlyBufferEngine emptyOut).out.useFloats = true ∧
      DecCall.setImageOutBuffer ⟨4, .uint8, .nativeEndian, 0⟩ 0 0 ∈
        (DecodeJpegXlOneShot earlyBufferEngine emptyOut).calls) := by
  decide

/-- C7, amended: on every engine event sequence on which `DecodeJpegXlOneShot`
returns true and in which, before Success, Basic-info is reported exactly
once and ahead of every Need-image-output-buffer, the returned float-sample
flag is true exactly when the returned bit depth is greater than 8; every
pixel format handed to the engine has sample type float16 when the flag is
true and 8-bit integer when it is false; and every pixel buffer handed over
has the length `width * height * componentCount * sampleByteWidth` (in
`size_t`) with `sampleByteWidth` 2 when the flag is true and 1 when it is
false. -/
theorem C7_float_flag (eng : DecEngine) (out : DecodeOut)
    (hret : (DecodeJpegXlOneShot eng out).ret = some true)
    (honce : (statusesBeforeSuccess eng.events).count .basicInfo = 1)
    (hfirst : JxlDecoderStatus.needImageOutBuffer ∉
      (statusesBeforeSuccess eng.events).takeWhile (fun st => decide (st ≠ .basicInfo))) :
    ((DecodeJpegXlOneShot eng out).out.useFloats = true ↔
      8 < (DecodeJpegXlOneShot eng out).out.depth) ∧
    (∀ format, DecCall.imageOutBufferSize format ∈ (DecodeJpegXlOneShot eng out).calls →
      format.data_type = sampleTypeOf (DecodeJpegXlOneShot eng out).out.useFloats) ∧
    (∀ format bufferLength size,
      DecCall.setImageOutBuffer format bufferLength size ∈ (DecodeJpegXlOneShot eng out).calls →
      format.data_type = sampleTypeOf (DecodeJpegXlOneShot eng out).out.useFloats ∧
      bufferLength = claimedLength (DecodeJpegXlOneShot eng out).out % 2 ^ 64) := by
  obtain ⟨s2, hloop, hout, hcalls⟩ := decode_true eng out hret
  obtain ⟨info, sb, rest, hsb, hno, hrest, -, htake⟩ := decodeLoop_once _ _ _ honce hloop
  obtain ⟨y1, y2, y3, y4, -, -, y7⟩ :=
    onBasicInfo_synced info sb (fresh_hdrImage sb out _ hsb) (fresh_format sb out _ hsb)
  have hnone : sb.calls.filter DecCall.isBufferCall = [] := by
    rw [htake hfirst]
    simp [decodeStart, DecCall.isBufferCall]
  have hagree0 : ∀ c ∈ (onBasicInfo info sb).calls, c.agreesWith (onBasicInfo info sb) := by
    intro c hc
    apply agreesWith_of_not_bufferCall
    rw [y7, List.mem_append] at hc
    rcases hc with hc | hc
    · by_contra hb
      have : c ∈ sb.calls.filter DecCall.isBufferCall :=
        List.mem_filter.2 ⟨hc, by simpa using hb⟩
      rw [hnone] at this
      exact absurd this (List.not_mem_nil c)
    · rw [List.mem_singleton] at hc
      subst hc
      rfl
  obtain ⟨hmeta, -, hagree⟩ := decodeLoop_settled _ _ _ hno hrest
  have hag := hagree hagree0
  have hexp := expectedSize_claimed s2 _ _ hmeta y1 y4
  simp only [DecState.meta, Prod.mk.injEq] at hmeta
  obtain ⟨-, -, m3, -, m5, -, m7⟩ := hmeta
  have htype : s2.format.data_type = sampleTypeOf s2.out.useFloats := by
    rw [m7, m5, y3]; rfl
  rw [hout, hcalls]
  refine ⟨?_, ?_, ?_⟩
  · rw [m5, m3]; exact y2
  · intro format hmem
    have := hag _ hmem
    simp only [DecCall.agreesWith] at this
    rw [this]; exact htype
  · intro format bufferLength size hmem
    have := hag _ hmem
    simp only [DecCall.agreesWith] at this
    rw [this.1, this.2]
    exact ⟨htype, hexp⟩

/-- C7, witness: the amended statement at the usual event order of a 1x1
image with three 16-bit channels. -/
theorem C7_float_flag_witness :
    ((DecodeJpegXlOneShot hdrEngine emptyOut).out.useFloats = true ↔
      8 < (DecodeJpegXlOneShot hdrEngine emptyOut).out.depth) ∧
    (DecodeJpegXlOneShot hdrEngine emptyOut).out.useFloats = true :=
  ⟨(C7_float_flag hdrEngine emptyOut (by decide) (by decide) (by decide)).1, by decide⟩


/-! ## C3: the drain of the encoder output -/

/-- C3: for every sequence of engine answers made of any number of "need more
output" answers followed by a terminal one, the drain loop of
`EncodeJxlOneshot` ends, makes one `JxlEncoderProcessOutput` call per answer,
and leaves in `compressed` exactly the bytes the engine stored during these
calls, in call order: no unused capacity remains, and the bytes stored before
a doubling keep their values and offsets.  The return value is true exactly
when the terminal status is success. -/
theorem C3_drain_exact (pre : List EncOutput) (t : EncOutput) (rest : List EncOutput)
    (compressed : List Byte) (calls : List EncCall)
    (hpre : ∀ r ∈ pre, r.status = .needMoreOutput) (ht : t.status ≠ .needMoreOutput) :
    ∃ extra, List.Forall₂ EncCall.answers extra (pre ++ [t]) ∧
      (drainOutput (pre ++ t :: rest) compressed calls).calls = calls ++ extra ∧
      (drainOutput (pre ++ t :: rest) compressed calls).compressed = writtenBytes extra ∧
      (drainOutput (pre ++ t :: rest) compressed calls).ret
        = some (decide (t.status = .success)) := by
  have hinv : DrainState.Inv
      ⟨resize compressed 64, 0, (resize compressed 64).length - 0, calls⟩ := by
    simp [DrainState.Inv]
  obtain ⟨s1, extra, e1, e2, e3, e4, e5⟩ := drainLoop_spec t rest ht pre _ hinv hpre
  have hfin : resize s1.compressed s1.offset = writtenBytes extra := by
    unfold DrainState.Inv at e2
    unfold resize
    have : s1.offset - s1.compressed.length = 0 := by omega
    rw [this, e5]
    simp
  refine ⟨extra, e4, ?_, ?_, ?_⟩
  · simp only [drainOutput, e1]
    split_ifs <;> simp [e3]
  · simp only [drainOutput, e1]
    split_ifs <;> simp [hfin]
  · simp only [drainOutput, e1]
    split_ifs with h <;> simp_all

/-- C3, witness: an engine that fills the first 64 bytes, asks for more room
and ends with 2 more bytes. -/
theorem C3_drain_exact_witness :
    ∃ extra, List.Forall₂ EncCall.answers extra
        ([⟨List.replicate 64 7, .needMoreOutput⟩] ++ [⟨[1, 2], .success⟩]) ∧
      (drainOutput ([⟨List.replicate 64 7, .needMoreOutput⟩] ++ ⟨[1, 2], .success⟩ :: [])
        [] []).calls = [] ++ extra ∧
      (drainOutput ([⟨List.replicate 64 7, .needMoreOutput⟩] ++ ⟨[1, 2], .success⟩ :: [])
        [] []).compressed = writtenBytes extra ∧
      (drainOutput ([⟨List.replicate 64 7, .needMoreOutput⟩] ++ ⟨[1, 2], .success⟩ :: [])
        [] []).ret = some (decide (JxlEncoderStatus.success = .success)) :=
  C3_drain_exact [⟨List.replicate 64 7, .needMoreOutput⟩] ⟨[1, 2], .success⟩ [] [] []
    (by decide) (by decide)

/-! ## C4: the frame distance -/

/-- C4, at a lossless request for a 1x1 RGB image: the distance handed to
`JxlEncoderSetFrameDistance` is `JXL_TRUE`, that is 1, and the lossless
distance 0 is never handed over; a lossy request hands over the distance
the caller gave. -/
theorem C4_lossless_passes_one :
    (EncodeJxlOneshot (encoderOf [⟨[], .success⟩]) [255, 0, 0] 1 1 [] .rgb .loseless 0).ret
      = some true ∧
    EncCall.setFrameDistance 1 ∈
      (EncodeJxlOneshot (encoderOf [⟨[], .success⟩]) [255, 0, 0] 1 1 [] .rgb .loseless 0).calls ∧
    EncCall.setFrameDistance LOSSLESS_DISTANCE ∉
      (EncodeJxlOneshot (encoderOf [⟨[], .success⟩]) [255, 0, 0] 1 1 [] .rgb .loseless 0).calls ∧
    EncCall.setFrameDistance 3 ∈
      (EncodeJxlOneshot (encoderOf [⟨[], .success⟩]) [255, 0, 0] 1 1 [] .rgb .loosy 3).calls := by
  decide

/-! ## C6: the component count -/

/-- C6: for every basic info the engine reports, the component count that
`DecodeJpegXlOneShot` derives and stores is at least 3, and is 4 whenever the
reported extra-channel count is greater than 0. -/
theorem C6_component_count (e : DecEvent) (s : DecState) (info : JxlBasicInfo)
    (hst : e.status = .basicInfo) (hinfo : e.basicInfo = some info) :
    ∃ s1, decodeStep e s = .next s1 ∧ s1.out.components = baseComponents info ∧
      3 ≤ s1.out.components ∧ (0 < info.num_extra_channels → s1.out.components = 4) := by
  refine ⟨onBasicInfo info ((s.call (.processInput e.status)).call .getBasicInfo), ?_, ?_, ?_, ?_⟩
  · simp [decodeStep, hst, hinfo]
  · exact onBasicInfo_components _ _
  · rw [onBasicInfo_components]; exact baseComponents_ge info
  · intro h; rw [onBasicInfo_components]; exact baseComponents_extra info h

/-- C6, witness: a basic info with one colour channel and one extra channel. -/
theorem C6_component_count_witness :
    ∃ s1, decodeStep (reportsBasicInfo 1 1 8 1 1) (decodeStart emptyOut []) = .next s1 ∧
      s1.out.components = baseComponents ⟨1, 1, 8, 0, false, 1, 1, 1, 0⟩ ∧
      3 ≤ s1.out.components ∧
      (0 < (⟨1, 1, 8, 0, false, 1, 1, 1, 0⟩ : JxlBasicInfo).num_extra_channels →
        s1.out.components = 4) :=
  C6_component_count (reportsBasicInfo 1 1 8 1 1) (decodeStart emptyOut [])
    ⟨1, 1, 8, 0, false, 1, 1, 1, 0⟩ rfl rfl

/-! ## C8: `DecodeBasicInfo` looks at one status -/

/-- C8: once the decoder is set up, `DecodeBasicInfo` returns true if and
only if the first status the engine reports is Basic-info and the basic-info
query succeeds; on any other first answer it returns false; and in both cases
it has called `JxlDecoderProcessInput` exactly once. -/
theorem C8_first_status_decides (eng : DecEngine) (xsize ysize : Nat) (e : DecEvent)
    (rest : List DecEvent)
    (hsub : eng.subscribeEventsOk = true) (hrun : eng.setParallelRunnerOk = true)
    (hev : eng.events = e :: rest) :
    ((DecodeBasicInfo eng xsize ysize).ret = some true ↔
        e.status = .basicInfo ∧ ∃ info, e.basicInfo = some info) ∧
    (¬ (e.status = .basicInfo ∧ ∃ info, e.basicInfo = some info) →
        (DecodeBasicInfo eng xsize ysize).ret = some false) ∧
    (DecodeBasicInfo eng xsize ysize).calls.filter DecCall.isProcessInput =
        [.processInput e.status] := by
  have hr : DecodeBasicInfo eng xsize ysize =
      ⟨(basicInfoLoop (e :: rest)
          ⟨xsize, ysize, [.subscribeEvents, .setParallelRunner, .setInput, .closeInput]⟩).1,
       (basicInfoLoop (e :: rest)
          ⟨xsize, ysize, [.subscribeEvents, .setParallelRunner, .setInput, .closeInput]⟩).2.xsize,
       (basicInfoLoop (e :: rest)
          ⟨xsize, ysize, [.subscribeEvents, .setParallelRunner, .setInput, .closeInput]⟩).2.ysize,
       (basicInfoLoop (e :: rest)
          ⟨xsize, ysize, [.subscribeEvents, .setParallelRunner, .setInput, .closeInput]⟩).2.calls⟩ := by
    simp [DecodeBasicInfo, hsub, hrun, hev]
  rw [hr]
  by_cases h1 : e.status = .basicInfo
  · cases h2 : e.basicInfo with
    | none => simp [basicInfoLoop, basicInfoStep, InfoState.call, h1, h2, DecCall.isProcessInput]
    | some info =>
      simp [basicInfoLoop, basicInfoStep, InfoState.call, h1, h2, DecCall.isProcessInput]
  · simp only [basicInfoLoop, basicInfoStep, InfoState.call, h1, if_false, false_and,
      not_false_eq_true, true_implies, iff_false]
    split_ifs <;> simp [DecCall.isProcessInput]

/-- C8, witness: an engine whose first answer is Need-more-input. -/
theorem C8_first_status_decides_witness :
    ((DecodeBasicInfo (engineOf [statusOnly .needMoreInput]) 0 0).ret = some true ↔
        (statusOnly .needMoreInput).status = .basicInfo ∧
          ∃ info, (statusOnly .needMoreInput).basicInfo = some info) ∧
    (¬ ((statusOnly .needMoreInput).status = .basicInfo ∧
          ∃ info, (statusOnly .needMoreInput).basicInfo = some info) →
        (DecodeBasicInfo (engineOf [statusOnly .needMoreInput]) 0 0).ret = some false) ∧
    (DecodeBasicInfo (engineOf [statusOnly .needMoreInput]) 0 0).calls.filter
        DecCall.isProcessInput = [.processInput (statusOnly .needMoreInput).status] :=
  C8_first_status_decides (engineOf [statusOnly .needMoreInput]) 0 0
    (statusOnly .needMoreInput) [] rfl rfl rfl

/-! ## C9: the cross-check of the buffer size -/

/-- C9: whenever the loop of `DecodeJpegXlOneShot` receives
Need-image-output-buffer and the size the engine requires differs from the
computed `width * height * componentCount * sampleByteWidth` (in `size_t`),
the call returns false; the pixel buffer is as it was, and the only calls made
in that iteration are the status poll and the size query, so the buffer is
neither resized nor handed to the engine. -/
theorem C9_size_mismatch_fails (e : DecEvent) (rest : List DecEvent) (s : DecState) (n : Nat)
    (hst : e.status = .needImageOutBuffer) (hsz : e.bufferSize = some n)
    (hne : n ≠ (s.out.xsize * s.out.ysize * toSizeT s.out.components *
      sampleBytes s.hdrImage) % 2 ^ 64) :
    ∃ s1, decodeLoop (e :: rest) s = (some false, s1) ∧ s1.out.pixels = s.out.pixels ∧
      s1.calls = s.calls ++ [.processInput .needImageOutBuffer, .imageOutBufferSize s.format] := by
  have hne2 : n ≠ expectedSize s := by rw [expectedSize_eq]; exact hne
  refine ⟨(s.call (.processInput .needImageOutBuffer)).call (.imageOutBufferSize s.format),
    ?_, rfl, ?_⟩
  · simp [decodeLoop, decodeStep, hst, onNeedImageOutBuffer, hsz, expectedSize_call, hne2,
      call_format]
  · simp [DecState.call]

/-- C9, witness: after the basic info of a 1x1 image with three 8-bit
channels (3 bytes), an engine that requires 5 bytes. -/
theorem C9_size_mismatch_fails_witness :
    ∃ s1, decodeLoop (requestsBuffer 5 :: [statusOnly .success])
        (onBasicInfo ⟨1, 1, 8, 0, false, 1, 3, 0, 0⟩ (decodeStart emptyOut [])) = (some false, s1) ∧
      s1.out.pixels = (onBasicInfo ⟨1, 1, 8, 0, false, 1, 3, 0, 0⟩
        (decodeStart emptyOut [])).out.pixels ∧
      s1.calls = (onBasicInfo ⟨1, 1, 8, 0, false, 1, 3, 0, 0⟩ (decodeStart emptyOut [])).calls ++
        [.processInput .needImageOutBuffer,
          .imageOutBufferSize (onBasicInfo ⟨1, 1, 8, 0, false, 1, 3, 0, 0⟩
            (decodeStart emptyOut [])).format] :=
  C9_size_mismatch_fails (requestsBuffer 5) [statusOnly .success]
    (onBasicInfo ⟨1, 1, 8, 0, false, 1, 3, 0, 0⟩ (decodeStart emptyOut [])) 5 rfl rfl (by decide)

/-! ## C10: the size declared for the pixel buffer -/

/-- C10, at a 1x1 image with three 16-bit channels: the pixel buffer is
resized to 6 bytes and handed over with a declared size of 12 bytes; at the
same image with 8-bit channels the buffer has 3 bytes and 3 are declared. -/
theorem C10_float16_declares_double :
    (DecodeJpegXlOneShot hdrEngine emptyOut).ret = some true ∧
    (DecodeJpegXlOneShot hdrEngine emptyOut).out.pixels.length = 6 ∧
    (DecodeJpegXlOneShot hdrEngine emptyOut).calls.filter DecCall.isBufferCall =
      [.imageOutBufferSize ⟨3, .float16, .nativeEndian, 0⟩,
        .setImageOutBuffer ⟨3, .float16, .nativeEndian, 0⟩ 6 12] ∧
    (DecodeJpegXlOneShot sdrEngine emptyOut).calls.filter DecCall.isBufferCall =
      [.imageOutBufferSize ⟨3, .uint8, .nativeEndian, 0⟩,
        .setImageOutBuffer ⟨3, .uint8, .nativeEndian, 0⟩ 3 3] := by
  decide


/-! ## C5: the extra channel -/

/-- C5: on an engine whose `JxlEncoderInitBasicInfo` yields zero extra
channels, an RGB request hands over a basic info with zero extra channels and
never calls `JxlEncoderSetExtraChannelInfo`.  On an engine whose
`JxlEncoderInitExtraChannelInfo` records the channel type it is given, an RGBA
request whose configuration gets past `JxlEncoderSetBasicInfo` hands over a
basic info with one extra channel and then, as its next call, declares
channel 0 of alpha type with 8 bits per sample, not premultiplied; no other
basic info or extra channel is declared later. -/
theorem C5_extra_channel (eng : EncEngine) (pixels : List Byte) (xsize ysize : Nat)
    (compressed : List Byte) (compression_option : JxlCompressionOption)
    (compression_distance : CFloat) :
    (eng.initBasicInfo.num_extra_channels = 0 →
      (∀ info, EncCall.setBasicInfo info ∈ (EncodeJxlOneshot eng pixels xsize ysize compressed
          .rgb compression_option compression_distance).calls → info.num_extra_channels = 0) ∧
      (∀ i ch, EncCall.setExtraChannelInfo i ch ∉ (EncodeJxlOneshot eng pixels xsize ysize
          compressed .rgb compression_option compression_distance).calls)) ∧
    (eng.setParallelRunnerOk = true → eng.setBasicInfoOk = true →
      (eng.initExtraChannelInfo .alpha).type = .alpha →
      ∃ info ch later,
        (EncodeJxlOneshot eng pixels xsize ysize compressed .rgba compression_option
          compression_distance).calls =
          [.setParallelRunner, .setBasicInfo info, .setExtraChannelInfo 0 ch] ++ later ∧
        info.num_extra_channels = 1 ∧
        ch.type = .alpha ∧ ch.bits_per_sample = 8 ∧ ch.alpha_premultiplied = false ∧
        (∀ info2, EncCall.setBasicInfo info2 ∉ later) ∧
        (∀ i ch2, EncCall.setExtraChannelInfo i ch2 ∉ later)) := by
  constructor
  · intro h0
    have hinfo : (encodeBasicInfo eng.initBasicInfo xsize ysize .rgb
        compression_option).num_extra_channels = 0 := by
      simp [encodeBasicInfo, h0]
    constructor
    · intro info hmem
      unfold EncodeJxlOneshot at hmem
      simp only [] at hmem
      split_ifs at hmem <;>
        cases compression_option <;>
        simp [drainOutput_calls_eq, drainCalls_not_setBasicInfo] at hmem <;>
        (rw [hmem]; exact hinfo)
    · intro i ch hmem
      unfold EncodeJxlOneshot at hmem
      simp only [] at hmem
      split_ifs at hmem <;>
        cases compression_option <;>
        simp [drainOutput_calls_eq, drainCalls_not_setExtraChannelInfo] at hmem
  · intro h1 h2 h3
    have hinfo : (encodeBasicInfo eng.initBasicInfo xsize ysize .rgba
        compression_option).num_extra_channels = 1 := by
      simp [encodeBasicInfo]
    refine ⟨encodeBasicInfo eng.initBasicInfo xsize ysize .rgba compression_option,
      { eng.initExtraChannelInfo .alpha with bits_per_sample := 8, alpha_premultiplied := false },
      (EncodeJxlOneshot eng pixels xsize ysize compressed .rgba compression_option
        compression_distance).calls.drop 3, ?_, hinfo, h3, rfl, rfl, ?_, ?_⟩
    · rcases eng with ⟨b1, init, b2, initE, b3, b4, b5, b6, outs⟩
      simp only at h1 h2
      subst h1 h2
      cases b3 <;> cases b4 <;> cases b5 <;> cases b6 <;> cases compression_option <;>
        simp [EncodeJxlOneshot, drainOutput_calls_eq]
    · intro info2
      rcases eng with ⟨b1, init, b2, initE, b3, b4, b5, b6, outs⟩
      simp only at h1 h2
      subst h1 h2
      cases b3 <;> cases b4 <;> cases b5 <;> cases b6 <;> cases compression_option <;>
        simp [EncodeJxlOneshot, drainOutput_calls_eq, drainCalls_not_setBasicInfo]
    · intro i ch2
      rcases eng with ⟨b1, init, b2, initE, b3, b4, b5, b6, outs⟩
      simp only at h1 h2
      subst h1 h2
      cases b3 <;> cases b4 <;> cases b5 <;> cases b6 <;> cases compression_option <;>
        simp [EncodeJxlOneshot, drainOutput_calls_eq, drainCalls_not_setExtraChannelInfo]

/-- C5, witness: a 1x1 image encoded lossily as RGB and as RGBA on an engine
that accepts every call. -/
theorem C5_extra_channel_witness :
    ((∀ info, EncCall.setBasicInfo info ∈ (EncodeJxlOneshot twoChunkEncoder [255, 0, 0] 1 1 []
          .rgb .loosy 1).calls → info.num_extra_channels = 0) ∧
      (∀ i ch, EncCall.setExtraChannelInfo i ch ∉ (EncodeJxlOneshot twoChunkEncoder
          [255, 0, 0] 1 1 [] .rgb .loosy 1).calls)) ∧
    (∃ info ch later,
        (EncodeJxlOneshot twoChunkEncoder [255, 0, 0, 255] 1 1 [] .rgba .loosy 1).calls =
          [.setParallelRunner, .setBasicInfo info, .setExtraChannelInfo 0 ch] ++ later ∧
        info.num_extra_channels = 1 ∧
        ch.type = .alpha ∧ ch.bits_per_sample = 8 ∧ ch.alpha_premultiplied = false ∧
        (∀ info2, EncCall.setBasicInfo info2 ∉ later) ∧
        (∀ i ch2, EncCall.setExtraChannelInfo i ch2 ∉ later)) :=
  ⟨(C5_extra_channel twoChunkEncoder [255, 0, 0] 1 1 [] .loosy 1).1 rfl,
   (C5_extra_channel twoChunkEncoder [255, 0, 0, 255] 1 1 [] .loosy 1).2 rfl rfl rfl⟩

end JxlWorker
